import Mathlib

/-!
# A verification development for the vk-parse Vulkan registry parser

This file gives a shallow embedding of `src/vk-parse/src/parse.rs` — a
streaming, diagnostics-collecting parser for the Vulkan API registry XML
document — and proves properties of the embedded definitions.

The XML token source is modelled as a `List XmlEvent`; end of list stands for
end of the underlying stream (or its first tokenization error, after which the
source yields nothing usable and every loop in the source exits).  Rust
functions that can `panic!` / `expect` / `unreachable!` are modelled with an
outer `Option`: `none` is a panic.  Machine integers are modelled as `Nat`/`Int`
with explicit range checks where the Rust integer parsers check them.

The registry tree data types live in a part of the crate that only declares
passive data (`types.rs`, not present under `src/`); those declarations are
modelled from the specification and from the constructor sites in `parse.rs`.
-/

set_option maxHeartbeats 1600000

namespace VkParse

/-! ## Rust string primitives, modelled on `List Char` -/

/-- Rust `str::trim_start` (whitespace from the front). -/
def rsTrimStart (s : String) : String :=
  ⟨s.data.dropWhile Char.isWhitespace⟩

/-- Rust `str::trim_end` (whitespace from the back). -/
def rsTrimEnd (s : String) : String :=
  ⟨(s.data.reverse.dropWhile Char.isWhitespace).reverse⟩

/-- Rust `str::trim`. -/
def rsTrim (s : String) : String :=
  rsTrimEnd (rsTrimStart s)

/-- Rust `str::strip_prefix` for a string pattern. -/
def stripPre (s pat : String) : Option String :=
  if pat.data.isPrefixOf s.data then some ⟨s.data.drop pat.data.length⟩ else none

/-- Rust `str::strip_suffix` for a string pattern. -/
def stripSuf (s pat : String) : Option String :=
  if pat.data.reverse.isPrefixOf s.data.reverse then
    some ⟨s.data.take (s.data.length - pat.data.length)⟩
  else none

/-- Rust `str::starts_with` for a string pattern. -/
def rsStartsWith (s pat : String) : Bool :=
  pat.data.isPrefixOf s.data

/-- Rust `str::ends_with` for a string pattern. -/
def rsEndsWith (s pat : String) : Bool :=
  pat.data.reverse.isPrefixOf s.data.reverse

/-- Rust `str::ends_with` for a char pattern. -/
def rsEndsWithChar (s : String) (c : Char) : Bool :=
  match s.data.reverse with
  | [] => false
  | d :: _ => d = c

/-- Rust `str::contains` for a char pattern. -/
def rsContainsChar (s : String) (c : Char) : Bool :=
  s.data.contains c

/-- Splitting accumulator loop for `rsSplitOnChar`. -/
def splitOnCharGo (sep : Char) : List Char → List Char → List String
  | [], acc => [⟨acc.reverse⟩]
  | c :: rest, acc =>
    if c = sep then ⟨acc.reverse⟩ :: splitOnCharGo sep rest []
    else splitOnCharGo sep rest (c :: acc)

/-- Rust `str::split(sep)` for a char separator (note `"".split(sep)` is `[""]`). -/
def rsSplitOnChar (s : String) (sep : Char) : List String :=
  splitOnCharGo sep s.data []

/-- Find the first index at which `pat` occurs as a sublist. -/
def findSub : List Char → List Char → Option Nat
  | _, [] => some 0
  | [], _ :: _ => none
  | c :: rest, pat =>
    if pat.isPrefixOf (c :: rest) then some 0
    else (findSub rest pat).map (· + 1)

/-- Rust `str::find` for a string pattern. -/
def rsFindSub (s pat : String) : Option Nat :=
  findSub s.data pat.data

/-- Rust `str::split_once` for a string pattern. -/
def rsSplitOnceSub (s pat : String) : Option (String × String) :=
  (findSub s.data pat.data).map fun i =>
    (⟨s.data.take i⟩, ⟨s.data.drop (i + pat.data.length)⟩)

/-! ## Rust integer and bool parsing -/

/-- Digit value in a radix, if any. -/
def digitVal (radix : Nat) (c : Char) : Option Nat :=
  let v :=
    if '0' ≤ c ∧ c ≤ '9' then some (c.toNat - '0'.toNat)
    else if 'a' ≤ c ∧ c ≤ 'z' then some (c.toNat - 'a'.toNat + 10)
    else if 'A' ≤ c ∧ c ≤ 'Z' then some (c.toNat - 'A'.toNat + 10)
    else none
  match v with
  | some v => if v < radix then some v else none
  | none => none

/-- Accumulate digits; `none` if a char is not a digit of the radix. -/
def digitsVal (radix : Nat) : List Char → Nat → Option Nat
  | [], acc => some acc
  | c :: rest, acc =>
    match digitVal radix c with
    | some v => digitsVal radix rest (acc * radix + v)
    | none => none

/-- Rust unsigned `from_str_radix` / `FromStr`: optional `+` sign, one or more
digits, and an overflow check against the exclusive bound of the width. -/
def rustParseUnsigned (radix : Nat) (bound : Nat) (s : String) : Option Nat :=
  let cs := match s.data with
    | '+' :: rest => some rest
    | rest => some rest
  match cs with
  | some [] => none
  | some ds =>
    match digitsVal radix ds 0 with
    | some v => if v < bound then some v else none
    | none => none
  | none => none

/-- Rust signed `from_str_radix` / `FromStr` for `i64`: optional sign, one or
more digits, result in `[-2^63, 2^63)`. -/
def rustParseI64 (radix : Nat) (s : String) : Option Int :=
  let (neg, cs) := match s.data with
    | '+' :: rest => (false, rest)
    | '-' :: rest => (true, rest)
    | rest => (false, rest)
  match cs with
  | [] => none
  | ds =>
    match digitsVal radix ds 0 with
    | some v =>
      if neg then
        if v ≤ 2 ^ 63 then some (-(v : Int)) else none
      else
        if v < 2 ^ 63 then some (v : Int) else none
    | none => none

/-- Rust `u8::from_str`. -/
def rustParseU8 (s : String) : Option Nat := rustParseUnsigned 10 (2 ^ 8) s

/-- Rust `u32::from_str_radix(_, 16)`. -/
def rustParseU32Hex (s : String) : Option Nat := rustParseUnsigned 16 (2 ^ 32) s

/-- Rust `bool::from_str`. -/
def rustParseBool (s : String) : Option Bool :=
  if s = "true" then some true else if s = "false" then some false else none

/-! ## The registry tree data model

Modelled from the spec: the passive tree types (`types.rs`) are not under
`src/`; each declaration below follows §3 of the specification and the
constructor sites in `parse.rs`. -/

/-- Modelled from the spec: single or double pointer indirection with
per-level const-ness. -/
inductive PointerKind where
  | Single (is_const : Bool)
  | Double (is_const : Bool) (inner_is_const : Bool)
  deriving DecidableEq, Repr

/-- Modelled from the spec: one array dimension, a literal or a named constant. -/
inductive ArrayLength where
  | Static (n : Nat)
  | Constant (name : String)
  deriving DecidableEq, Repr

/-- Modelled from the spec: a single dynamic length value. -/
inductive DynamicLength where
  | NullTerminated
  | Static (n : Nat)
  | Parameterized (parameter : String)
  | ParameterizedField (parameter : String) (field : String)
  deriving DecidableEq, Repr

/-- Modelled from the spec: the `len`/`altlen` encoding of a dynamic shape. -/
inductive DynamicShapeKind where
  | Expression (latex_expr : Option String) (c_expr : String)
  | Single (l : DynamicLength)
  | Double (outer : DynamicLength) (inner : DynamicLength)
  deriving DecidableEq, Repr

/-- Modelled from the spec: the `externsync` attribute encoding. -/
inductive ExternSyncKind where
  | Value
  | Fields (fields : List String)
  deriving DecidableEq, Repr

/-- Modelled from the spec: the `optional` attribute encoding. -/
inductive OptionalKind where
  | Single (b : Bool)
  | Double (outer : Bool) (inner : Bool)
  deriving DecidableEq, Repr

/-- Modelled from the spec: the declaration descriptor shared by members,
parameters, prototypes and underlying types. -/
structure NameWithType where
  type_name : String
  pointer_kind : Option PointerKind
  is_struct : Bool
  bitfield_size : Option Nat
  name : String
  array_shape : Option (List ArrayLength)
  dynamic_shape : Option DynamicShapeKind
  externsync : Option ExternSyncKind
  optional : Option OptionalKind
  noautovalidity : Option Unit
  objecttype : Option String
  deriving DecidableEq, Repr

/-- Modelled from the spec: the parsed `#define` body value. -/
inductive TypeDefineValue where
  | Empty
  | Value (v : String)
  | Expression (e : String)
  | Function (params : List String) (expression : String)
  deriving DecidableEq, Repr

/-- Modelled from the spec: structured form of a `#define` directive. -/
structure TypeDefine where
  name : String
  comment : Option String
  defref : List String
  is_disabled : Bool
  replace : Bool
  value : TypeDefineValue
  deriving DecidableEq, Repr

/-- Modelled from the spec: a function-pointer typedef. -/
structure TypeFunctionPointer where
  proto : NameWithType
  params : List NameWithType
  deriving DecidableEq, Repr

/-- Modelled from the spec: dispatchable or non-dispatchable handle. -/
inductive HandleType where
  | Dispatch
  | NoDispatch
  deriving DecidableEq, Repr

/-- Modelled from the spec: a handle definition. -/
structure TypeHandle where
  name : String
  handle_type : HandleType
  deriving DecidableEq, Repr

/-- Modelled from the spec: markup collected in a member body. -/
inductive TypeMemberMarkup where
  | Comment (comment : String)
  deriving DecidableEq, Repr

/-- Modelled from the spec: a struct/union member definition. -/
structure TypeMemberDefinition where
  selector : Option String
  selection : Option String
  validextensionstructs : Option String
  values : Option String
  limittype : Option String
  code : String
  definition : NameWithType
  markup : List TypeMemberMarkup
  deriving DecidableEq, Repr

/-- Modelled from the spec: a member of a struct/union type. -/
inductive TypeMember where
  | Definition (d : TypeMemberDefinition)
  | Comment (comment : String)
  deriving DecidableEq, Repr

/-- Modelled from the spec: markup collected in a type code body. -/
inductive TypeCodeMarkup where
  | Name (n : String)
  | Type (t : String)
  | ApiEntry (t : String)
  deriving DecidableEq, Repr

/-- Modelled from the spec: the closed variant set mirroring type categories. -/
inductive TypeSpec where
  | None
  | Include (name : Option String) (quoted : Bool)
  | Define (d : TypeDefine)
  | Typedef (name : String) (basetype : Option String)
  | Bitmask (n : Option NameWithType)
  | Handle (h : TypeHandle)
  | Enumeration
  | FunctionPointer (f : TypeFunctionPointer)
  | Struct (members : List TypeMember)
  | Union (members : List TypeMember)
  deriving DecidableEq, Repr

/-- Modelled from the spec: a declared type. -/
structure Type' where
  api : Option String
  alias_ : Option String
  requires_ : Option String
  name : Option String
  parent : Option String
  returnedonly : Option String
  structextends : Option String
  allowduplicate : Option String
  objtypeenum : Option String
  bitvalues : Option String
  comment : Option String
  spec : TypeSpec
  deriving DecidableEq, Repr

/-- Modelled from the spec: a child of the `<types>` section. -/
inductive TypesChild where
  | Type (t : Type')
  | Comment (comment : String)
  deriving DecidableEq, Repr

/-- Modelled from the spec: the `<types>` section. -/
structure Types where
  comment : Option String
  children : List TypesChild
  deriving DecidableEq, Repr

/-- Modelled from the spec: the mutually exclusive enum value specification. -/
inductive EnumSpec where
  | Alias (alias_ : String) (extends_ : Option String)
  | Offset (offset : Int) (extends_ : String) (extnumber : Option Int) (dir : Bool)
  | Bitpos (bitpos : Int) (extends_ : Option String)
  | Value (value : String) (extends_ : Option String)
  | None
  deriving DecidableEq, Repr

/-- Modelled from the spec: a named enum value. -/
structure Enum where
  name : String
  comment : Option String
  type_suffix : Option String
  api : Option String
  protect : Option String
  spec : EnumSpec
  deriving DecidableEq, Repr

/-- Modelled from the spec: an `<unused>` range inside `<enums>`. -/
structure Unused where
  start : Int
  end_ : Option Int
  vendor : Option String
  comment : Option String
  deriving DecidableEq, Repr

/-- Modelled from the spec: a child of the `<enums>` section. -/
inductive EnumsChild where
  | Enum (e : Enum)
  | Unused (u : Unused)
  | Comment (comment : String)
  deriving DecidableEq, Repr

/-- Modelled from the spec: the `<enums>` section. -/
structure Enums where
  name : Option String
  kind : Option String
  start : Option Int
  end_ : Option Int
  vendor : Option String
  comment : Option String
  children : List EnumsChild
  bitwidth : Option Nat
  deriving DecidableEq, Repr

/-- Modelled from the spec: a command parameter. -/
structure CommandParam where
  definition : NameWithType
  validstructs : List String
  deriving DecidableEq, Repr

/-- Modelled from the spec: a full command definition. -/
structure CommandDefinition where
  queues : Option String
  successcodes : Option String
  errorcodes : Option String
  renderpass : Option String
  videocoding : Option String
  cmdbufferlevel : Option String
  pipeline : Option String
  comment : Option String
  proto : NameWithType
  params : List CommandParam
  alias_ : Option String
  description : Option String
  implicitexternsyncparams : List String
  code : String
  deriving DecidableEq, Repr

/-- Modelled from the spec: a command, either an alias or a definition. -/
inductive Command where
  | Alias (alias_ : String) (name : String)
  | Definition (d : CommandDefinition)
  deriving DecidableEq, Repr

/-- Modelled from the spec: the `<commands>` section. -/
structure Commands where
  comment : Option String
  children : List Command
  deriving DecidableEq, Repr

/-- Modelled from the spec: one vendor id record. -/
structure VendorId where
  name : String
  comment : Option String
  id : Nat
  deriving DecidableEq, Repr

/-- Modelled from the spec: the `<vendorids>` section. -/
structure VendorIds where
  comment : Option String
  children : List VendorId
  deriving DecidableEq, Repr

/-- Modelled from the spec: one platform record. -/
structure Platform where
  name : String
  comment : Option String
  protect : String
  deriving DecidableEq, Repr

/-- Modelled from the spec: the `<platforms>` section. -/
structure Platforms where
  comment : Option String
  children : List Platform
  deriving DecidableEq, Repr

/-- Modelled from the spec: one author tag record. -/
structure Tag where
  name : String
  author : String
  contact : String
  deriving DecidableEq, Repr

/-- Modelled from the spec: the `<tags>` section. -/
structure Tags where
  comment : Option String
  children : List Tag
  deriving DecidableEq, Repr

/-- Modelled from the spec: an interface item in a require/remove block. -/
inductive InterfaceItem where
  | Comment (comment : String)
  | Type (name : String) (comment : Option String)
  | Enum (e : Enum)
  | Command (name : String) (comment : Option String)
  deriving DecidableEq, Repr

/-- Modelled from the spec: a require or remove block. -/
inductive ExtensionChild where
  | Require (api : Option String) (profile : Option String)
      (extension : Option String) (feature : Option String)
      (comment : Option String) (items : List InterfaceItem)
  | Remove (api : Option String) (profile : Option String)
      (comment : Option String) (items : List InterfaceItem)
  deriving DecidableEq, Repr

/-- Modelled from the spec: a feature (API version) block. -/
structure Feature where
  api : String
  name : String
  number : String
  protect : Option String
  comment : Option String
  children : List ExtensionChild
  deriving DecidableEq, Repr

/-- Modelled from the spec: one extension record. -/
structure Extension where
  name : String
  comment : Option String
  number : Option Int
  protect : Option String
  platform : Option String
  author : Option String
  contact : Option String
  ext_type : Option String
  requires_ : Option String
  requires_core : Option String
  supported : Option String
  deprecatedby : Option String
  promotedto : Option String
  obsoletedby : Option String
  provisional : Bool
  specialuse : Option String
  sortorder : Option Int
  children : List ExtensionChild
  deriving DecidableEq, Repr

/-- Modelled from the spec: the `<extensions>` section. -/
structure Extensions where
  comment : Option String
  children : List Extension
  deriving DecidableEq, Repr

/-- Modelled from the spec: a child record of a pixel format. -/
inductive FormatChild where
  | Component (name : String) (bits : String) (numericFormat : String)
      (planeIndex : Option Nat)
  | Plane (index : Nat) (widthDivisor : Nat) (heightDivisor : Nat)
      (compatible : String)
  | SpirvImageFormat (name : String)
  deriving DecidableEq, Repr

/-- Modelled from the spec: one pixel format record. -/
structure Format where
  name : String
  class_ : String
  blockSize : Nat
  texelsPerBlock : Nat
  blockExtent : Option String
  packed : Option Nat
  compressed : Option String
  chroma : Option String
  children : List FormatChild
  deriving DecidableEq, Repr

/-- Modelled from the spec: the `<formats>` section. -/
structure Formats where
  comment : Option String
  children : List Format
  deriving DecidableEq, Repr

/-- Modelled from the spec: a feature enable for SPIR-V tables. -/
structure FeatureEnable where
  struct_ : String
  feature : String
  requires_ : Option String
  alias_ : Option String
  deriving DecidableEq, Repr

/-- Modelled from the spec: a property enable for SPIR-V tables. -/
structure PropertyEnable where
  property : String
  member : String
  value : String
  requires_ : Option String
  deriving DecidableEq, Repr

/-- Modelled from the spec: an `<enable>` record. -/
inductive Enable where
  | Version (v : String)
  | Extension (e : String)
  | Feature (f : FeatureEnable)
  | Property (p : PropertyEnable)
  deriving DecidableEq, Repr

/-- Modelled from the spec: one SPIR-V extension record. -/
structure SpirvExtension where
  name : String
  enables : List Enable
  deriving DecidableEq, Repr

/-- Modelled from the spec: the `<spirvextensions>` section. -/
structure SpirvExtensions where
  comment : Option String
  children : List SpirvExtension
  deriving DecidableEq, Repr

/-- Modelled from the spec: one SPIR-V capability record. -/
structure SpirvCapability where
  name : String
  enables : List Enable
  deriving DecidableEq, Repr

/-- Modelled from the spec: the `<spirvcapabilities>` section. -/
structure SpirvCapabilities where
  comment : Option String
  children : List SpirvCapability
  deriving DecidableEq, Repr

/-- Modelled from the spec: a top-level section of the registry. -/
inductive RegistryChild where
  | Comment (comment : String)
  | VendorIds (v : VendorIds)
  | Platforms (p : Platforms)
  | Tags (t : Tags)
  | Types (t : Types)
  | Enums (e : Enums)
  | Commands (c : Commands)
  | Feature (f : Feature)
  | Extensions (e : Extensions)
  | Formats (f : Formats)
  | SpirvExtensions (s : SpirvExtensions)
  | SpirvCapabilities (s : SpirvCapabilities)
  deriving DecidableEq, Repr

/-- Modelled from the spec: the root document tree. -/
structure Registry where
  children : List RegistryChild
  deriving DecidableEq, Repr

/-- Modelled from the spec: the non-fatal diagnostic kinds of §7. -/
inductive Err where
  | MissingAttribute (xpath : String) (name : String)
  | UnexpectedAttribute (xpath : String) (name : String)
  | UnexpectedAttributeValue (xpath : String) (name : String) (value : String)
  | MissingElement (xpath : String) (name : String)
  | UnexpectedElement (xpath : String) (name : String)
  | MissingCharacters (xpath : String)
  | SchemaViolation (xpath : String) (desc : String)
  | ParseIntError (xpath : String) (text : String)
  | Internal (desc : String)
  deriving DecidableEq, Repr

/-- Modelled from the spec: the fatal error kinds of §7 that are observable in
the stream model (I/O and tokenization failures live outside the model). -/
inductive FatalError where
  | MissingRegistryElement
  deriving DecidableEq, Repr

/-! ## The token source and parse context -/

/-- An XML attribute (its local name and value). -/
structure XmlAttribute where
  name : String
  value : String
  deriving DecidableEq, Repr

/-- A pull event of the token source.  `Other` stands for the event kinds the
source ignores in every `_ => {}` branch (processing instructions, comments,
document start/end, CData markers). -/
inductive XmlEvent where
  | StartElement (name : String) (attributes : List XmlAttribute)
  | EndElement
  | Characters (text : String)
  | Whitespace (text : String)
  | Other
  deriving DecidableEq, Repr

/-- `ParseCtx`: the remaining events, the breadcrumb path and the diagnostics. -/
structure Ctx where
  events : List XmlEvent
  xpath : String
  errors : List Err
  deriving DecidableEq, Repr

/-- `ParseCtx::push_element`. -/
def pushElement (c : Ctx) (name : String) : Ctx :=
  { c with xpath := c.xpath ++ "/" ++ name }

/-- The truncation at the last slash performed by `ParseCtx::pop_element`
(`rfind` + `truncate`); `none` when the path holds no slash. -/
def xpathPop : String → Option String := fun s =>
  match s.data.reverse.dropWhile (fun c => c ≠ '/') with
  | [] => none
  | _ :: p => some ⟨p.reverse⟩

/-- `ParseCtx::pop_element`. -/
def popElement (c : Ctx) : Ctx :=
  match xpathPop c.xpath with
  | some p => { c with xpath := p }
  | none =>
    { c with errors := c.errors ++ [.Internal "ParseCtx push_element/pop_element mismatch."] }

/-- `xpath_attribute`: breadcrumb plus an attribute qualifier. -/
def xpath_attribute (xpath attribute_name : String) : String :=
  xpath ++ "[@" ++ attribute_name ++ "]"

/-- The loop of `consume_current_element`, tracking the element depth. -/
def consumeGo : Nat → List XmlEvent → String → List Err → Ctx
  | _, [], x, e => ⟨[], x, e⟩
  | depth, ev :: rest, x, e =>
    match ev with
    | .StartElement n _ => consumeGo (depth + 1) rest (x ++ "/" ++ n) e
    | .EndElement =>
      let c := popElement ⟨rest, x, e⟩
      if depth - 1 = 0 then c else consumeGo (depth - 1) rest c.xpath c.errors
    | _ => consumeGo depth rest x e

/-- `consume_current_element`: skip the remainder of the current element. -/
def consumeCurrentElement (c : Ctx) : Ctx :=
  consumeGo 1 c.events c.xpath c.errors

/-- The loop of `parse_text_element`, accumulating character runs. -/
def textGo : Nat → List XmlEvent → String → String → List Err → String × Ctx
  | _, [], acc, x, e => (acc, ⟨[], x, e⟩)
  | depth, ev :: rest, acc, x, e =>
    match ev with
    | .StartElement n _ => textGo (depth + 1) rest acc (x ++ "/" ++ n) e
    | .Characters t => textGo depth rest (acc ++ t) x e
    | .EndElement =>
      let c := popElement ⟨rest, x, e⟩
      if depth - 1 = 0 then (acc, c) else textGo (depth - 1) rest acc c.xpath c.errors
    | _ => textGo depth rest acc x e

/-- `parse_text_element`: the concatenated character data of the element. -/
def parse_text_element (c : Ctx) : String × Ctx :=
  textGo 1 c.events "" c.xpath c.errors

/-! ## The dispatch engine

The `match_attributes!` / `match_elements!` macros expand, at every use site,
to the two routing loops below; the per-site arms become the handler function.
A handler answering `unmatched` triggers the default branch (diagnostic, and
for elements a subtree skip); `panicked` models a Rust panic inside an arm. -/

/-- The `match_attributes!` routing loop.  A handler returns `none` for an
attribute name outside the expected set, which logs `UnexpectedAttribute`. -/
def matchAttributes {σ : Type} (h : String → String → Ctx → σ → Option (Ctx × σ)) :
    List XmlAttribute → Ctx → σ → Ctx × σ
  | [], c, s => (c, s)
  | a :: rest, c, s =>
    match h a.name a.value c s with
    | some (c1, s1) => matchAttributes h rest c1 s1
    | none =>
      matchAttributes h rest
        { c with errors := c.errors ++ [.UnexpectedAttribute c.xpath a.name] } s

/-- Answer of an element-routing handler arm. -/
inductive HandlerResult (σ : Type) where
  | unmatched
  | panicked
  | next (c : Ctx) (s : σ)

/-- The `match_elements!` routing loop, fuelled (the fuel only bounds the
number of loop iterations; the public wrapper supplies enough for any run in
which handlers do not grow the event list, which no handler does). -/
def matchElementsGo {σ : Type}
    (h : String → List XmlAttribute → Ctx → σ → HandlerResult σ) :
    Nat → Ctx → σ → Option (Ctx × σ)
  | 0, _, _ => none
  | fuel + 1, c, s =>
    match c.events with
    | [] => some (c, s)
    | ev :: rest =>
      let c1 : Ctx := { c with events := rest }
      match ev with
      | .StartElement name attrs =>
        let c2 := pushElement c1 name
        match h name attrs c2 s with
        | .next c3 s3 => matchElementsGo h fuel c3 s3
        | .panicked => none
        | .unmatched =>
          let c3 : Ctx :=
            { c2 with errors := c2.errors ++ [.UnexpectedElement c2.xpath name] }
          matchElementsGo h fuel (consumeCurrentElement c3) s
      | .EndElement => some (popElement c1, s)
      | _ => matchElementsGo h fuel c1 s

/-- The `match_elements!` routing loop with the standard fuel. -/
def matchElements {σ : Type}
    (h : String → List XmlAttribute → Ctx → σ → HandlerResult σ)
    (c : Ctx) (s : σ) : Option (Ctx × σ) :=
  matchElementsGo h (c.events.length + 1) c s

/-! ## Leaf value parsers -/

/-- `parse_integer`: base 16 with a `0x` prefix, else base 10; failure logs a
`SchemaViolation` (whose source text quotes the offending value). -/
def parse_integer (c : Ctx) (text : String) : Option Int × Ctx :=
  let parse_res :=
    if rsStartsWith text "0x" then rustParseI64 16 ⟨text.data.drop 2⟩
    else rustParseI64 10 text
  match parse_res with
  | some v => (some v, c)
  | none =>
    (none,
      { c with errors := c.errors ++
          [.SchemaViolation c.xpath
            ("Value " ++ text ++ " is not valid base 10 or 16 integer.")] })

/-- `parse_int_attribute` for a fixed-width unsigned integer with exclusive
bound `bound`; failure logs a `ParseIntError` at the attribute-qualified path. -/
def parse_int_attribute (bound : Nat) (c : Ctx) (text : String)
    (attribute_name : String) : Option Nat × Ctx :=
  match rustParseUnsigned 10 bound text with
  | some v => (some v, c)
  | none =>
    (none,
      { c with errors := c.errors ++
          [.ParseIntError (xpath_attribute c.xpath attribute_name) text] })

/-! ## The declaration micro-grammar: pre/post type text and array shapes -/

/-- `ParsedPreTypeTag`: the `const` / `struct` keywords before the type tag. -/
structure ParsedPreTypeTag where
  is_const : Bool := false
  is_struct : Bool := false
  deriving DecidableEq, Repr

/-- `parse_pre_type_tag_text`: optional `const`, then optional `struct`;
anything left is an assertion failure (`none`). -/
def parse_pre_type_tag_text (text : String) : Option ParsedPreTypeTag :=
  let trimmed := rsTrim text
  let p1 := match stripPre trimmed "const" with
    | some t => (true, rsTrimStart t)
    | none => (false, trimmed)
  let p2 := match stripPre p1.2 "struct" with
    | some t => (true, rsTrimStart t)
    | none => (false, p1.2)
  if p2.2 = "" then some ⟨p1.1, p2.1⟩ else none

/-- `parse_post_type_tag_text`: the pointer suffix after the type tag
(`*`, `**` or `* const*`); `none` is the `expect` panic for a `* const` not
followed by a second star. -/
def parse_post_type_tag_text (text : String) (parsed_pre : ParsedPreTypeTag) :
    Option (Option PointerKind × String) :=
  let is_const := parsed_pre.is_const
  let trimmed := rsTrim text
  match stripPre trimmed "*" with
  | some t1 =>
    let t1 := rsTrimStart t1
    match stripPre t1 "const" with
    | some t2 =>
      match stripPre (rsTrimStart t2) "*" with
      | some t3 => some (some (.Double is_const true), rsTrimStart t3)
      | none => none
    | none =>
      match stripPre t1 "*" with
      | some t2 => some (some (.Double is_const false), rsTrimStart t2)
      | none => some (some (.Single is_const), t1)
  | none => some (none, trimmed)

/-- The bracket loop of `parse_array_shape_text`; `none` is a panic (a
non-numeric literal or a non-empty remainder after the closing bracket). -/
def arrayShapeGo : Nat → String → List ArrayLength → Option (List ArrayLength × Bool)
  | 0, _, _ => none
  | fuel + 1, t, shape_vec =>
    match rsSplitOnceSub t "]" with
    | some (n, rest) =>
      match rustParseUnsigned 10 (2 ^ 64) n with
      | none => none
      | some v =>
        let shape_vec := shape_vec ++ [.Static v]
        match stripPre (rsTrimStart rest) "[" with
        | some rest2 => arrayShapeGo fuel rest2 shape_vec
        | none => if rest = "" then some (shape_vec, false) else none
    | none => some (shape_vec, true)

/-- `parse_array_shape_text`: grows `shape_vec` with the bracketed literals of
`text`; the boolean is the "hungry" flag (an unclosed bracket expecting an
`<enum>` marker element). -/
def parse_array_shape_text (text : String) (shape_vec : List ArrayLength) :
    Option (List ArrayLength × Bool) :=
  match stripPre (rsTrim text) "[" with
  | some t => arrayShapeGo (t.data.length + 1) t shape_vec
  | none => some (shape_vec, false)

/-! ## Simple per-node builders -/

/-- Attribute state of `parse_vendorid`. -/
structure VendoridAttrs where
  name : Option String := none
  comment : Option String := none
  id : Option Nat := none
  deriving Repr

/-- The attribute arms of `parse_vendorid`. -/
def vendoridAttrHandler : String → String → Ctx → VendoridAttrs →
    Option (Ctx × VendoridAttrs) :=
  fun n v c st =>
    match n with
    | "name" => some (c, { st with name := some v })
    | "comment" => some (c, { st with comment := some v })
    | "id" =>
      let v0 := if rsStartsWith v "0x" then rustParseU32Hex ⟨v.data.drop 2⟩ else none
      match v0 with
      | some idv => some (c, { st with id := some idv })
      | none =>
        some ({ c with errors := c.errors ++
          [.UnexpectedAttributeValue c.xpath "id" v] }, st)
    | _ => none

/-- `parse_vendorid`: the `id` attribute must be `0x`-prefixed hexadecimal. -/
def parse_vendorid (c : Ctx) (attributes : List XmlAttribute) :
    Option VendorId × Ctx :=
  let p := matchAttributes vendoridAttrHandler attributes c {}
  let c := consumeCurrentElement p.1
  let st := p.2
  match st.name with
  | none => (none, { c with errors := c.errors ++ [.MissingAttribute c.xpath "name"] })
  | some name =>
    match st.id with
    | none => (none, { c with errors := c.errors ++ [.MissingAttribute c.xpath "id"] })
    | some id => (some ⟨name, st.comment, id⟩, c)

/-- Attribute state of `parse_platform`. -/
structure PlatformAttrs where
  name : Option String := none
  comment : Option String := none
  protect : Option String := none
  deriving Repr

/-- `parse_platform`. -/
def parse_platform (c : Ctx) (attributes : List XmlAttribute) :
    Option Platform × Ctx :=
  let p := matchAttributes (σ := PlatformAttrs) (fun n v c st =>
    match n with
    | "name" => some (c, { st with name := some v })
    | "comment" => some (c, { st with comment := some v })
    | "protect" => some (c, { st with protect := some v })
    | _ => none) attributes c {}
  let c := consumeCurrentElement p.1
  let st := p.2
  match st.name with
  | none => (none, { c with errors := c.errors ++ [.MissingAttribute c.xpath "name"] })
  | some name =>
    match st.protect with
    | none => (none, { c with errors := c.errors ++ [.MissingAttribute c.xpath "protect"] })
    | some protect => (some ⟨name, st.comment, protect⟩, c)

/-- Attribute state of `parse_tag`. -/
structure TagAttrs where
  name : Option String := none
  author : Option String := none
  contact : Option String := none
  deriving Repr

/-- `parse_tag`. -/
def parse_tag (c : Ctx) (attributes : List XmlAttribute) : Option Tag × Ctx :=
  let p := matchAttributes (σ := TagAttrs) (fun n v c st =>
    match n with
    | "name" => some (c, { st with name := some v })
    | "author" => some (c, { st with author := some v })
    | "contact" => some (c, { st with contact := some v })
    | _ => none) attributes c {}
  let c := consumeCurrentElement p.1
  let st := p.2
  match st.name with
  | none => (none, { c with errors := c.errors ++ [.MissingAttribute c.xpath "name"] })
  | some name =>
    match st.author with
    | none => (none, { c with errors := c.errors ++ [.MissingAttribute c.xpath "author"] })
    | some author =>
      match st.contact with
      | none => (none, { c with errors := c.errors ++ [.MissingAttribute c.xpath "contact"] })
      | some contact => (some ⟨name, author, contact⟩, c)

/-- Attribute state of `parse_enum`. -/
structure EnumAttrs where
  name : Option String := none
  comment : Option String := none
  type_suffix : Option String := none
  api : Option String := none
  extends_ : Option String := none
  value : Option String := none
  bitpos : Option String := none
  extnumber : Option String := none
  offset : Option String := none
  positive : Bool := true
  protect : Option String := none
  alias_ : Option String := none
  deriving Repr

/-- The attribute arms of `parse_enum`. -/
def enumAttrHandler : String → String → Ctx → EnumAttrs → Option (Ctx × EnumAttrs) :=
  fun n v c st =>
    match n with
    | "name" => some (c, { st with name := some v })
    | "comment" => some (c, { st with comment := some v })
    | "type" => some (c, { st with type_suffix := some v })
    | "api" => some (c, { st with api := some v })
    | "extends" => some (c, { st with extends_ := some v })
    | "value" => some (c, { st with value := some v })
    | "offset" => some (c, { st with offset := some v })
    | "dir" =>
      if v = "-" then some (c, { st with positive := false })
      else
        some ({ c with errors := c.errors ++
          [.UnexpectedAttributeValue c.xpath "dir" v] }, st)
    | "bitpos" => some (c, { st with bitpos := some v })
    | "extnumber" => some (c, { st with extnumber := some v })
    | "protect" => some (c, { st with protect := some v })
    | "alias" => some (c, { st with alias_ := some v })
    | _ => none

/-- `parse_enum`: resolve the mutually exclusive `offset` / `bitpos` /
`value` / `alias` specification of an `<enum>` element.  (The source appends
the four offending attribute values to the exclusivity violation message;
the model keeps the fixed leading text.) -/
def parse_enum (c : Ctx) (attributes : List XmlAttribute) : Option Enum × Ctx :=
  let p := matchAttributes enumAttrHandler attributes c {}
  let c := p.1
  let st := p.2
  match st.name with
  | none => (none, { c with errors := c.errors ++ [.MissingAttribute c.xpath "name"] })
  | some name =>
    let count := (if st.offset.isSome then 1 else 0) + (if st.bitpos.isSome then 1 else 0)
      + (if st.value.isSome then 1 else 0) + (if st.alias_.isSome then 1 else 0)
    if count > 1 then
      let c : Ctx := { c with errors := c.errors ++
        [.SchemaViolation c.xpath "Unable to determine correct specification of enum"] }
      (none, consumeCurrentElement c)
    else
      match st.alias_ with
      | some alias_ =>
        (some ⟨name, st.comment, st.type_suffix, st.api, st.protect,
          .Alias alias_ st.extends_⟩, consumeCurrentElement c)
      | none =>
      match st.offset with
      | some offsetText =>
        (match parse_integer c offsetText with
         | (none, c) => (none, consumeCurrentElement c)
         | (some offset, c) =>
           match st.extends_ with
           | some extends_ =>
             let q := match st.extnumber with
               | some en => parse_integer c en
               | none => (none, c)
             (some ⟨name, st.comment, st.type_suffix, st.api, st.protect,
               .Offset offset extends_ q.1 st.positive⟩, consumeCurrentElement q.2)
           | none =>
             let c : Ctx := { c with errors := c.errors ++
               [.SchemaViolation c.xpath "Missing extends on enum with offset spec."] }
             (none, consumeCurrentElement c))
      | none =>
      match st.bitpos with
      | some bitposText =>
        (match parse_integer c bitposText with
         | (none, c) => (none, consumeCurrentElement c)
         | (some bitpos, c) =>
           (some ⟨name, st.comment, st.type_suffix, st.api, st.protect,
             .Bitpos bitpos st.extends_⟩, consumeCurrentElement c))
      | none =>
      match st.value with
      | some value =>
        (some ⟨name, st.comment, st.type_suffix, st.api, st.protect,
          .Value value st.extends_⟩, consumeCurrentElement c)
      | none =>
        (some ⟨name, st.comment, st.type_suffix, st.api, st.protect,
          .None⟩, consumeCurrentElement c)

/-- Attribute state of `parse_enums_child_unused`. -/
structure UnusedAttrs where
  start : Option String := none
  end_ : Option String := none
  vendor : Option String := none
  comment : Option String := none
  deriving Repr

/-- `parse_enums_child_unused`. -/
def parse_enums_child_unused (c : Ctx) (attributes : List XmlAttribute) :
    Option EnumsChild × Ctx :=
  let p := matchAttributes (σ := UnusedAttrs) (fun n v c st =>
    match n with
    | "start" => some (c, { st with start := some v })
    | "end" => some (c, { st with end_ := some v })
    | "vendor" => some (c, { st with vendor := some v })
    | "comment" => some (c, { st with comment := some v })
    | _ => none) attributes c {}
  let c := consumeCurrentElement p.1
  let st := p.2
  match st.start with
  | none => (none, { c with errors := c.errors ++ [.MissingAttribute c.xpath "start"] })
  | some startText =>
    match parse_integer c startText with
    | (none, c) => (none, c)
    | (some start, c) =>
      let q := match st.end_ with
        | some v => parse_integer c v
        | none => (none, c)
      (some (.Unused ⟨start, q.1, st.vendor, st.comment⟩), q.2)

/-! ## `parse_name_with_type`: the declaration descriptor parser -/

/-- Pull the next event (the `ctx.events.next()` of the source). -/
def ctxNext (c : Ctx) : Option XmlEvent × Ctx :=
  match c.events with
  | [] => (none, c)
  | e :: rest => (some e, { c with events := rest })

/-- One `len` value: `null-terminated`, an integer, a `parameter->field`
reference, or a bare parameter name. -/
def parseDynamicLengthValue (v : String) : DynamicLength :=
  if v = "null-terminated" then .NullTerminated
  else
    match rustParseUnsigned 10 (2 ^ 64) v with
    | some n => .Static n
    | none =>
      match rsSplitOnceSub v "->" with
      | some pf => .ParameterizedField pf.1 pf.2
      | none => .Parameterized v

/-- The `dynamic_shape` resolution from the `len` / `altlen` attributes at the
head of `parse_name_with_type`; `none` is the panic on more than two
comma-separated `len` values. -/
def parseNwtDynamicShape (len altlen : Option String) :
    Option (Option DynamicShapeKind) :=
  match len.bind (fun l => stripPre l "latexmath:") with
  | some latex_expr =>
    -- altlen was only added in version 61; without it the length is dropped
    match altlen with
    | some c_expr => some (some (.Expression (some latex_expr) c_expr))
    | none => some none
  | none =>
    match altlen with
    | some c_expr => some (some (.Expression none c_expr))
    | none =>
      match len with
      | some l =>
        match (rsSplitOnChar l ',').map parseDynamicLengthValue with
        | [] => none
        | [outer] => some (some (.Single outer))
        | [outer, inner] => some (some (.Double outer inner))
        | _ => none
      | none => some none

/-- The `optional` attribute: one or two comma-separated booleans (a third
value is never examined, matching the lazy iterator of the source); a
non-boolean among the examined values is a panic (`none`). -/
def parseNwtOptional (optional : Option String) : Option (Option OptionalKind) :=
  match optional with
  | none => some none
  | some v =>
    match (rsSplitOnChar v ',').map rustParseBool with
    | [] => none
    | [some outer] => some (some (.Single outer))
    | some outer :: some inner :: _ => some (some (.Double outer inner))
    | _ => none

/-- The `noautovalidity` attribute must be `"true"`; anything else panics. -/
def parseNwtNoautovalidity (noautovalidity : Option String) :
    Option (Option Unit) :=
  match noautovalidity with
  | some v => if v = "true" then some (some ()) else none
  | none => some none

/-- The `externsync` attribute: `"true"`, or comma-joined field paths rooted at
the declared name with separators `->`, `[].`, `.` or `::`; an unsupported
separator is a panic. -/
def parseNwtExternsyncFields (name : String) (v : String) : Option ExternSyncKind :=
  if v = "true" then some .Value
  else
    ((rsSplitOnChar v ',').mapM (fun value =>
      match stripPre value name with
      | none => none
      | some v1 =>
        match stripPre v1 "->" with
        | some field => some field
        | none =>
          match stripPre v1 "[]." with
          | some field => some field
          | none =>
            match stripPre v1 "." with
            | some field => some field
            | none =>
              match stripPre v1 "::" with
              | some field => some field
              | none => none)).map .Fields

/-- The extension hook of `parse_name_with_type` (`handle_extra`): given the
context (already inside the extra element), the code buffer, the element name,
its attributes and the hook state, it answers with the updated context, buffer
and state, and `true` to reject (`ControlFlow::Break`). -/
def NwtHook (σ : Type) : Type :=
  Ctx → String → String → List XmlAttribute → σ → Ctx × String × σ × Bool

/-- The always-reject hook used for `<proto>` and `<param>` bodies. -/
def breakHook {σ : Type} : NwtHook σ :=
  fun c code _ _ s => (c, code, s, true)

/-- The `<member>` hook: accept `<comment>` children, collecting their text as
member markup; reject anything else. -/
def memberHook : NwtHook (List TypeMemberMarkup) :=
  fun c code local_name _ markup =>
    match local_name with
    | "comment" =>
      let p := parse_text_element c
      (p.2, code, markup ++ [.Comment p.1], false)
    | _ => (c, code, markup, true)

/-- The "hungry" array-shape loop of `parse_name_with_type`: consume `<enum>`
marker elements naming symbolic constants until a closing text run ends the
shape.  Result: `none` is a panic; `some (none, c, code)` a dropped element
(diagnostic already logged); `some (some (shape, ev), c, code)` success with
the lookahead `ev`. -/
def nwtHungryGo : Nat → Ctx → Option XmlEvent → String → List ArrayLength → Bool →
    Option (Option (List ArrayLength × Option XmlEvent) × Ctx × String)
  | 0, _, _, _, _, _ => none
  | fuel + 1, c, ev, code, shape, hungry =>
    if hungry then
      match ev with
      | some (.StartElement local_name _) =>
        if local_name = "enum" then
          let c := pushElement c local_name
          let p := parse_text_element c
          let text := p.1
          let code := code ++ text
          let n := ctxNext p.2
          let shape := shape ++ [.Constant text]
          match n.1 with
          | some (.Characters t) =>
            let code := code ++ t
            let n2 := ctxNext n.2
            match stripPre (rsTrim t) "]" with
            | none => none
            | some trimmed =>
              match parse_array_shape_text (rsTrimStart trimmed) shape with
              | none => none
              | some sh => nwtHungryGo fuel n2.2 n2.1 code sh.1 sh.2
          | _ =>
            some (none,
              { n.2 with errors := n.2.errors ++ [.MissingCharacters n.2.xpath] }, code)
        else
          some (none,
            { c with errors := c.errors ++ [.MissingElement c.xpath "enum"] }, code)
      | _ =>
        some (none,
          { c with errors := c.errors ++ [.MissingElement c.xpath "enum"] }, code)
    else
      some (some (shape, ev), c, code)

/-- The trailing loop of `parse_name_with_type`: gather remaining text into the
code buffer, offer extra elements to the hook (rejection logs and skips), stop
at the owning end tag. -/
def nwtTrailingGo {σ : Type} (hook : NwtHook σ) :
    Nat → Ctx → Option XmlEvent → String → σ → Option (Ctx × String × σ)
  | 0, _, _, _, _ => none
  | fuel + 1, c, ev, code, s =>
    match ev with
    | none => some (c, code, s)
    | some e =>
      match e with
      | .Whitespace t =>
        let n := ctxNext c
        nwtTrailingGo hook fuel n.2 n.1 (code ++ t) s
      | .Characters t =>
        let n := ctxNext c
        nwtTrailingGo hook fuel n.2 n.1 (code ++ t) s
      | .StartElement elem_name attrs =>
        let c := pushElement c elem_name
        let r := hook c code elem_name attrs s
        let c2 :=
          if r.2.2.2 then
            consumeCurrentElement
              { r.1 with errors := r.1.errors ++ [.UnexpectedElement r.1.xpath elem_name] }
          else r.1
        let n := ctxNext c2
        nwtTrailingGo hook fuel n.2 n.1 r.2.1 r.2.2.1
      | .EndElement => some (popElement c, code, s)
      | .Other =>
        let n := ctxNext c
        nwtTrailingGo hook fuel n.2 n.1 code s

/-- The tail of `parse_name_with_type` from the `<name>` marker on: bitfield or
array shape text, the hungry loop, the trailing loop, and `externsync`. -/
def nwtAfterName {σ : Type} (hook : NwtHook σ) (c : Ctx) (ev : Option XmlEvent)
    (code : String) (parsed_pre : ParsedPreTypeTag) (type_name name : String)
    (pointer_kind : Option PointerKind) (dynamic_shape : Option DynamicShapeKind)
    (optionalK : Option OptionalKind) (noautovalidityK : Option Unit)
    (externsync objecttype : Option String) (s : σ) :
    Option (Option NameWithType × Ctx × String × σ) := do
  let step : Option ((Option Nat × Option (List ArrayLength) × Bool) × Option XmlEvent × Ctx × String) :=
    match ev with
    | some (.Characters t) =>
      let code := code ++ t
      let n := ctxNext c
      let trimmed := rsTrim t
      match stripPre trimmed ":" with
      | some rest =>
        match rustParseUnsigned 10 (2 ^ 64) rest with
        | some b => some ((some b, none, false), n.1, n.2, code)
        | none => none
      | none =>
        match parse_array_shape_text trimmed [] with
        | some sh => some ((none, some sh.1, sh.2), n.1, n.2, code)
        | none => none
    | _ => some ((none, none, false), ev, c, code)
  match step with
  | none => none
  | some ((bitfield_size, array_shape0, hungry), ev, c, code) =>
    let hstep ← nwtHungryGo (c.events.length + 1) c ev code (array_shape0.getD []) hungry
    match hstep with
    | (none, c, code) => some (none, c, code, s)
    | (some (shapeVec, ev), c, code) =>
      let array_shape := match array_shape0 with
        | some _ => some shapeVec
        | none => none
      let t ← nwtTrailingGo hook (c.events.length + 2) c ev code s
      let (c, code, s) := t
      let externsyncK ← match externsync with
        | some v => (parseNwtExternsyncFields name v).map some
        | none => pure none
      some (some
        { type_name, pointer_kind, is_struct := parsed_pre.is_struct,
          bitfield_size, name, array_shape, dynamic_shape,
          externsync := externsyncK, optional := optionalK,
          noautovalidity := noautovalidityK, objecttype }, c, code, s)

/-- `parse_name_with_type`: parse the body of a `<proto>`, `<param>` or
`<member>` element.  The result is `none` on a panic; otherwise the dropped-or-
parsed descriptor together with the context, the grown code buffer and the hook
state. -/
def parse_name_with_type {σ : Type} (hook : NwtHook σ) (c : Ctx) (code : String)
    (len altlen externsync optional noautovalidity objecttype : Option String)
    (s : σ) : Option (Option NameWithType × Ctx × String × σ) := do
  let dynamic_shape ← parseNwtDynamicShape len altlen
  let optionalK ← parseNwtOptional optional
  let noautovalidityK ← parseNwtNoautovalidity noautovalidity
  let n0 := ctxNext c
  let s1 : Option XmlEvent × Ctx × String :=
    match n0 with
    | (some (.Whitespace t), c) =>
      let n := ctxNext c
      (n.1, n.2, code ++ t)
    | (ev, c) => (ev, c, code)
  match s1 with
  | (ev1, c, code) =>
    let s2 : Option (Option XmlEvent × Ctx × String × ParsedPreTypeTag) :=
      match ev1 with
      | some (.Characters t) =>
        match parse_pre_type_tag_text t with
        | some pre =>
          let n := ctxNext c
          some (n.1, n.2, code ++ t, pre)
        | none => none
      | _ => some (ev1, c, code, {})
    match s2 with
    | none => none
    | some (ev2, c, code, parsed_pre) =>
      match ev2 with
      | some (.StartElement local_name _) =>
        if local_name = "type" then
          let c := pushElement c local_name
          let p := parse_text_element c
          let type_name := p.1
          let code := code ++ type_name
          let n := ctxNext p.2
          -- optional whitespace, then the pointer suffix text
          let s3 : Option XmlEvent × Ctx × String :=
            match n with
            | (some (.Whitespace t), c) =>
              let n2 := ctxNext c
              (n2.1, n2.2, code ++ t)
            | (ev, c) => (ev, c, code)
          match s3 with
          | (ev3, c, code) =>
            let s4 : Option (Option XmlEvent × Ctx × String × Option PointerKind) :=
              match ev3 with
              | some (.Characters t) =>
                let code := code ++ t
                match parse_post_type_tag_text t parsed_pre with
                | some kr =>
                  if kr.2 = "" then
                    let n2 := ctxNext c
                    some (n2.1, n2.2, code, kr.1)
                  else none
                | none => none
              | _ => some (ev3, c, code, none)
            match s4 with
            | none => none
            | some (ev4, c, code, pointer_kind) =>
              match ev4 with
              | some (.StartElement ln2 _) =>
                if ln2 = "name" then
                  let c := pushElement c ln2
                  let p2 := parse_text_element c
                  let name := p2.1
                  let code := code ++ name
                  let n2 := ctxNext p2.2
                  nwtAfterName hook n2.2 n2.1 code parsed_pre type_name name
                    pointer_kind dynamic_shape optionalK noautovalidityK
                    externsync objecttype s
                else
                  some (none,
                    { c with errors := c.errors ++ [.MissingElement c.xpath "name"] },
                    code, s)
              | _ =>
                some (none,
                  { c with errors := c.errors ++ [.MissingElement c.xpath "name"] },
                  code, s)
        else
          some (none,
            { c with errors := c.errors ++ [.MissingElement c.xpath "type"] }, code, s)
      | _ =>
        some (none,
          { c with errors := c.errors ++ [.MissingElement c.xpath "type"] }, code, s)

/-! ## `parse_type_funcptr`: function-pointer typedefs -/

/-- The parameter loop of `parse_type_funcptr`: a `<type>` marker, then raw
text holding the pointer suffix, the parameter name and a `,` or `);`. -/
def funcptrParamsGo : Nat → Ctx → ParsedPreTypeTag → List NameWithType →
    Option (Option (List NameWithType) × Ctx)
  | 0, _, _, _ => none
  | fuel + 1, c, parsed_pre, params =>
    match ctxNext c with
    | (some (.StartElement local_name _), c) =>
      if local_name = "type" then
        let c := pushElement c local_name
        let p := parse_text_element c
        let type_name := p.1
        match ctxNext p.2 with
        | (some (.Characters text), c) =>
          match parse_post_type_tag_text text parsed_pre with
          | none => none
          | some kr =>
            let (pointer_kind, rest) := kr
            let nr : String × Option String :=
              match rsSplitOnceSub rest "," with
              | some p => (p.1, some p.2)
              | none => ((stripSuf rest ");").getD rest, none)
            let params := params ++
              [{ type_name, pointer_kind, is_struct := parsed_pre.is_struct,
                 bitfield_size := none, array_shape := none, name := nr.1,
                 dynamic_shape := none, externsync := none, optional := none,
                 noautovalidity := none, objecttype := none }]
            match nr.2 with
            | some r =>
              match parse_pre_type_tag_text (rsTrim r) with
              | some pp => funcptrParamsGo fuel c pp params
              | none => none
            | none => some (some params, c)
        | (_, c) =>
          some (none, { c with errors := c.errors ++ [.MissingCharacters c.xpath] })
      else
        some (none, { c with errors := c.errors ++ [.MissingElement c.xpath "type"] })
    | (_, c) =>
      some (none, { c with errors := c.errors ++ [.MissingElement c.xpath "type"] })

/-- `parse_type_funcptr`: strip the fixed `typedef … (VKAPI_PTR *` tokens, read
the `<name>` marker, then the parameters.  An empty parameter list is detected
by the first post-name text run ending in a semicolon (the source comments that
this text is `)(void);`). -/
def parse_type_funcptr (c : Ctx) : Option (Option TypeFunctionPointer × Ctx) := do
  match ctxNext c with
  | (some (.Characters text), c) =>
    let trimmed := rsTrim text
    let t1 ← stripPre trimmed "typedef"
    let t2 ← stripSuf (rsTrimStart t1) "*"
    let t3 ← stripSuf (rsTrimEnd t2) "VKAPI_PTR"
    let type_str ← stripSuf (rsTrimEnd t3) "("
    let type_str := rsTrimEnd type_str
    let tk : String × Option PointerKind :=
      match stripSuf type_str "*" with
      | some rest => (rsTrimEnd rest, some (.Single false))
      | none => (type_str, none)
    match ctxNext c with
    | (some (.StartElement local_name _), c) =>
      if local_name = "name" then
        let c := pushElement c local_name
        let p := parse_text_element c
        let name := p.1
        let fnptr_defn : NameWithType :=
          { name, type_name := tk.1, pointer_kind := tk.2, is_struct := false,
            bitfield_size := none, array_shape := none, dynamic_shape := none,
            externsync := none, optional := none, noautovalidity := none,
            objecttype := none }
        match ctxNext p.2 with
        | (some (.Characters text2), c) =>
          let trimmed2 := rsTrim text2
          if rsEndsWithChar trimmed2 ';' then
            some (some ⟨fnptr_defn, []⟩, c)
          else do
            let u1 ← stripPre trimmed2 ")"
            let u2 ← stripPre (rsTrimStart u1) "("
            let parsed_pre ← parse_pre_type_tag_text (rsTrimStart u2)
            let r ← funcptrParamsGo (c.events.length + 1) c parsed_pre []
            match r with
            | (some params, c) => some (some ⟨fnptr_defn, params⟩, c)
            | (none, c) => some (none, c)
        | (_, c) =>
          some (none, { c with errors := c.errors ++ [.MissingCharacters c.xpath] })
      else
        some (none, { c with errors := c.errors ++ [.MissingElement c.xpath "name"] })
    | (_, c) =>
      some (none, { c with errors := c.errors ++ [.MissingElement c.xpath "name"] })
  | (_, c) =>
    some (none, { c with errors := c.errors ++ [.MissingCharacters c.xpath] })

/-! ## `process_define_code`: the preprocessor macro state machine -/

/-- Modelled from the spec: `crate::c::is_c_identifier_char` lives outside
`src/`; a C identifier character is a letter, digit or underscore. -/
def is_c_identifier_char (c : Char) : Bool :=
  c.isAlphanum || c = '_'

/-- The mutable accumulator of `process_define_code`. -/
structure DefineSt where
  is_disabled : Bool := true
  replace : Bool := false
  parameters : List String := []
  value_ : Option String := none
  c_expr_ : Option String := none
  comment_ : Option String := none
  deriving DecidableEq, Repr

/-- The states of the `process_define_code` machine. -/
inductive DefineState where
  | Initial
  | LineComment
  | BlockComment
  | DefineName
  | DefineArgs
  | DefineExpression
  | DefineValue
  deriving DecidableEq, Repr

/-- The `DefineArgs` inner loop: comma-separated identifiers up to `)` (the
character right after the `)` is consumed and dropped, as in the source). -/
def defineArgsGo : Nat → List Char → DefineSt → Option (List Char × DefineSt)
  | 0, _, _ => none
  | fuel + 1, chars, st =>
    let r1 := chars.dropWhile Char.isWhitespace
    let nm := r1.takeWhile is_c_identifier_char
    let r2 := r1.drop nm.length
    let st := { st with parameters := st.parameters ++ [String.mk nm] }
    let r3 := r2.dropWhile Char.isWhitespace
    match r3 with
    | ',' :: r4 => defineArgsGo fuel r4 st
    | ')' :: r4 => some (r4.drop 1, st)
    | _ => none

/-- The `process_define_code` character machine; `none` is a panic. -/
def defineGo (name_ : String) (defref : List String) :
    Nat → DefineState → List Char → DefineSt → Option DefineSt
  | 0, _, _, _ => none
  | fuel + 1, state, chars, st =>
    match state with
    | .Initial =>
      match chars.dropWhile Char.isWhitespace with
      | [] => none
      | '/' :: cs2 =>
        match cs2 with
        | '/' :: cs3 => defineGo name_ defref fuel .LineComment cs3 st
        | '*' :: cs3 => defineGo name_ defref fuel .BlockComment cs3 st
        | _ => none
      | '#' :: cs2 =>
        let ds := cs2.takeWhile (fun c => 'a' ≤ c && c ≤ 'z')
        let rest := cs2.drop ds.length
        let next : Option (List Char) :=
          match rest with
          | [] => some []
          | r :: rr => if r.isWhitespace then some rr else none
        match next with
        | none => none
        | some chars2 =>
          if String.mk ds = "define" then
            defineGo name_ defref fuel .DefineName chars2 st
          else
            some { st with replace := true, is_disabled := false }
      | 's' :: cs2 =>
        if "truct ".data.isPrefixOf cs2 then some { st with replace := true }
        else defineGo name_ defref fuel .Initial cs2 st
      | _ => none
    | .LineComment =>
      match chars.findIdx? (fun c => c = '\n') with
      | some idx =>
        let comment := rsTrim ⟨chars.take idx⟩
        let st := if st.comment_.isNone then { st with comment_ := some comment } else st
        defineGo name_ defref fuel .Initial (chars.drop (idx + 1)) st
      | none =>
        some (if st.comment_.isNone then { st with comment_ := some (rsTrim ⟨chars⟩) } else st)
    | .BlockComment =>
      match findSub chars "*/".data with
      | some idx =>
        let comment := String.mk (chars.take idx)
        let st := if st.comment_.isNone then { st with comment_ := some comment } else st
        defineGo name_ defref fuel .Initial (chars.drop (idx + 2)) st
      | none => none
    | .DefineName =>
      let st := { st with is_disabled := false }
      let ws := chars.takeWhile Char.isWhitespace
      let r1 := chars.drop ws.length
      let nm := r1.takeWhile is_c_identifier_char
      let r2 := r1.drop nm.length
      if String.mk nm ≠ name_ then none
      else
        match r2 with
        | [] => some st
        | c0 :: r3 =>
          if c0 = '(' then defineGo name_ defref fuel .DefineArgs r3 st
          else if c0.isWhitespace then defineGo name_ defref fuel .DefineValue r3 st
          else none
    | .DefineArgs =>
      match defineArgsGo (chars.length + 1) chars st with
      | some p => defineGo name_ defref fuel .DefineExpression p.1 p.2
      | none => none
    | .DefineExpression => some { st with c_expr_ := some (rsTrim ⟨chars⟩) }
    | .DefineValue =>
      let v := rsTrim ⟨chars⟩
      if defref.isEmpty then some { st with value_ := some v }
      else some { st with c_expr_ := some v }

/-- `process_define_code`: run the machine over the reconstructed code text of
a `<type category="define">` element and assemble the `TypeDefine`. -/
def process_define_code (code : String) (name_ : String) (defref : List String) :
    Option TypeDefine := do
  let st ← defineGo name_ defref (code.data.length + 1) .Initial code.data {}
  let st := if st.replace then { st with c_expr_ := some code } else st
  let value : TypeDefineValue :=
    match st.c_expr_ with
    | some expression =>
      if st.parameters.isEmpty then .Expression expression
      else .Function st.parameters expression
    | none =>
      match st.value_ with
      | some value => .Value value
      | none => .Empty
  return ⟨name_, st.comment_, defref, st.is_disabled, st.replace, value⟩

/-! ## `parse_type` and the text-combining dispatch loop -/

/-- Answer of a handler arm of `match_elements_combine_text!`. -/
inductive CTHandlerResult (σ : Type) where
  | unmatched
  | panicked
  | next (c : Ctx) (buf : String) (s : σ)

/-- The `match_elements_combine_text!` routing loop: like `match_elements!`
but concatenating character and whitespace runs into a caller buffer. -/
def matchElementsCTGo {σ : Type}
    (h : String → List XmlAttribute → Ctx → String → σ → CTHandlerResult σ) :
    Nat → Ctx → String → σ → Option (Ctx × String × σ)
  | 0, _, _, _ => none
  | fuel + 1, c, buf, s =>
    match c.events with
    | [] => some (c, buf, s)
    | ev :: rest =>
      let c1 : Ctx := { c with events := rest }
      match ev with
      | .Characters t => matchElementsCTGo h fuel c1 (buf ++ t) s
      | .Whitespace t => matchElementsCTGo h fuel c1 (buf ++ t) s
      | .StartElement name attrs =>
        let c2 := pushElement c1 name
        match h name attrs c2 buf s with
        | .next c3 b3 s3 => matchElementsCTGo h fuel c3 b3 s3
        | .panicked => none
        | .unmatched =>
          let c3 : Ctx :=
            { c2 with errors := c2.errors ++ [.UnexpectedElement c2.xpath name] }
          matchElementsCTGo h fuel (consumeCurrentElement c3) buf s
      | .EndElement => some (popElement c1, buf, s)
      | .Other => matchElementsCTGo h fuel c1 buf s

/-- `match_elements_combine_text!` with the standard fuel. -/
def matchElementsCT {σ : Type}
    (h : String → List XmlAttribute → Ctx → String → σ → CTHandlerResult σ)
    (c : Ctx) (buf : String) (s : σ) : Option (Ctx × String × σ) :=
  matchElementsCTGo h (c.events.length + 1) c buf s

/-- Attribute state of `parse_type`. -/
structure TypeAttrs where
  api : Option String := none
  alias_ : Option String := none
  requires_ : Option String := none
  name : Option String := none
  category : Option String := none
  parent : Option String := none
  returnedonly : Option String := none
  structextends : Option String := none
  allowduplicate : Option String := none
  objtypeenum : Option String := none
  bitvalues : Option String := none
  comment : Option String := none
  deriving Repr

/-- Attribute state of a `<member>` element. -/
structure MemberAttrs where
  len : Option String := none
  altlen : Option String := none
  externsync : Option String := none
  optional : Option String := none
  selector : Option String := none
  selection : Option String := none
  noautovalidity : Option String := none
  validextensionstructs : Option String := none
  values : Option String := none
  limittype : Option String := none
  objecttype : Option String := none
  deriving Repr

/-- The child arms of `parse_type` (`member` and `comment` only for
struct/union categories; `name`, `type`, `apientry` collect markup). -/
def typeContentHandler (has_members : Bool) :
    String → List XmlAttribute → Ctx → String →
      List TypeMember × List TypeCodeMarkup →
      CTHandlerResult (List TypeMember × List TypeCodeMarkup) :=
  fun name attrs c buf ms =>
    match name with
    | "member" =>
      if has_members then
        let p := matchAttributes (σ := MemberAttrs) (fun n v c st =>
          match n with
          | "len" => some (c, { st with len := some v })
          | "altlen" => some (c, { st with altlen := some v })
          | "externsync" => some (c, { st with externsync := some v })
          | "optional" => some (c, { st with optional := some v })
          | "selector" => some (c, { st with selector := some v })
          | "selection" => some (c, { st with selection := some v })
          | "noautovalidity" => some (c, { st with noautovalidity := some v })
          | "validextensionstructs" => some (c, { st with validextensionstructs := some v })
          | "values" => some (c, { st with values := some v })
          | "limittype" => some (c, { st with limittype := some v })
          | "objecttype" => some (c, { st with objecttype := some v })
          | _ => none) attrs c {}
        let ma := p.2
        match parse_name_with_type memberHook p.1 "" ma.len ma.altlen ma.externsync
          ma.optional ma.noautovalidity ma.objecttype [] with
        | none => .panicked
        | some (od, c, lcode, lmarkup) =>
          match od with
          | some definition =>
            .next c buf
              (ms.1 ++ [.Definition ⟨ma.selector, ma.selection, ma.validextensionstructs,
                ma.values, ma.limittype, lcode, definition, lmarkup⟩], ms.2)
          | none => .next c buf ms
      else .unmatched
    | "comment" =>
      if has_members then
        let p := parse_text_element c
        .next p.2 buf (ms.1 ++ [.Comment p.1], ms.2)
      else .unmatched
    | "name" =>
      let p := parse_text_element c
      .next p.2 (buf ++ p.1) (ms.1, ms.2 ++ [.Name p.1])
    | "type" =>
      let p := parse_text_element c
      .next p.2 (buf ++ p.1) (ms.1, ms.2 ++ [.Type p.1])
    | "apientry" =>
      let p := parse_text_element c
      .next p.2 (buf ++ p.1) (ms.1, ms.2 ++ [.ApiEntry p.1])
    | _ => .unmatched

/-- `parse_type`: route the attributes, pre-parse a funcpointer body, collect
members/markup/code, then build the `TypeSpec` selected by the category
(`none` is any of the unwrap/unreachable panics of that match). -/
def parse_type (c : Ctx) (attributes : List XmlAttribute) :
    Option (TypesChild × Ctx) := do
  let p := matchAttributes (σ := TypeAttrs) (fun n v c st =>
    match n with
    | "api" => some (c, { st with api := some v })
    | "alias" => some (c, { st with alias_ := some v })
    | "requires" => some (c, { st with requires_ := some v })
    | "name" => some (c, { st with name := some v })
    | "category" => some (c, { st with category := some v })
    | "parent" => some (c, { st with parent := some v })
    | "returnedonly" => some (c, { st with returnedonly := some v })
    | "structextends" => some (c, { st with structextends := some v })
    | "allowduplicate" => some (c, { st with allowduplicate := some v })
    | "objtypeenum" => some (c, { st with objtypeenum := some v })
    | "bitvalues" => some (c, { st with bitvalues := some v })
    | "comment" => some (c, { st with comment := some v })
    | _ => none) attributes c {}
  let st := p.2
  let fp : Option (Option TypeFunctionPointer × Ctx) :=
    match st.category with
    | some cat => if cat = "funcpointer" then parse_type_funcptr p.1 else some (none, p.1)
    | none => some (none, p.1)
  let (fn_ptr_spec, c) ← fp
  let has_members := st.category = some "struct" || st.category = some "union"
  let q ← matchElementsCT (typeContentHandler has_members) c "" ([], [])
  let (c, code, ms) := q
  let members := ms.1
  let markup := ms.2
  let findName := markup.findSome? (fun m =>
    match m with | .Name n => some n | _ => none)
  let findType := markup.findSome? (fun m =>
    match m with | .Type t => some t | _ => none)
  let spec ← (match st.category with
    | some "include" => some (TypeSpec.Include findName (!(rsContainsChar code '<')))
    | some "define" => do
      let name_ ← st.name <|> findName
      let defref := markup.filterMap (fun m =>
        match m with | .Type t => some t | _ => none)
      let d ← process_define_code code name_ defref
      some (TypeSpec.Define d)
    | some "basetype" => do
      let nm ← findName
      some (TypeSpec.Typedef nm findType)
    | some "bitmask" =>
      if st.name.isSome || st.alias_.isSome then some (TypeSpec.Bitmask none)
      else do
        let nm ← findName
        let ty ← findType
        some (TypeSpec.Bitmask (some
          { name := nm, type_name := ty, pointer_kind := none, is_struct := false,
            bitfield_size := none, array_shape := none, dynamic_shape := none,
            externsync := none, optional := none, noautovalidity := none,
            objecttype := none }))
    | some "handle" =>
      if st.name.isSome || st.alias_.isSome then some TypeSpec.None
      else do
        let nm ← findName
        let ty ← findType
        let ht ← (if ty = "VK_DEFINE_HANDLE" then some HandleType.Dispatch
          else if ty = "VK_DEFINE_NON_DISPATCHABLE_HANDLE" then some HandleType.NoDispatch
          else none)
        some (TypeSpec.Handle ⟨nm, ht⟩)
    | some "enum" => some TypeSpec.Enumeration
    | some "funcpointer" => fn_ptr_spec.map TypeSpec.FunctionPointer
    | some "struct" => some (TypeSpec.Struct members)
    | some "union" => some (TypeSpec.Union members)
    | none => some TypeSpec.None
    | some _ => none)
  return (.Type
    { api := st.api, alias_ := st.alias_, requires_ := st.requires_,
      name := st.name, parent := st.parent, returnedonly := st.returnedonly,
      structextends := st.structextends, allowduplicate := st.allowduplicate,
      objtypeenum := st.objtypeenum, bitvalues := st.bitvalues,
      comment := st.comment, spec }, c)

/-! ## `parse_command` -/

/-- Attribute state of `parse_command`. -/
structure CommandAttrs where
  name : Option String := none
  alias_ : Option String := none
  queues : Option String := none
  successcodes : Option String := none
  errorcodes : Option String := none
  renderpass : Option String := none
  videocoding : Option String := none
  cmdbufferlevel : Option String := none
  pipeline : Option String := none
  comment : Option String := none
  deriving Repr

/-- Attribute state of a `<param>` element. -/
structure ParamAttrs where
  len : Option String := none
  altlen : Option String := none
  externsync : Option String := none
  optional : Option String := none
  noautovalidity : Option String := none
  objecttype : Option String := none
  validstructs : Option String := none
  deriving Repr

/-- The mutable body state of the non-alias branch of `parse_command`. -/
structure CommandBodySt where
  code : String := ""
  proto : Option NameWithType := none
  params : List CommandParam := []
  description : Option String := none
  implicitexternsyncparams : List String := []
  alias_ : Option String := none
  deriving Repr

/-- The child arms of the non-alias branch of `parse_command`. -/
def commandBodyHandler :
    String → List XmlAttribute → Ctx → CommandBodySt → HandlerResult CommandBodySt :=
  fun name attrs c st =>
    match name with
    | "proto" =>
      match parse_name_with_type breakHook c st.code none none none none none none () with
      | none => .panicked
      | some (proto, c, code, _) => .next c { st with proto, code := code ++ "(" }
    | "param" =>
      let p := matchAttributes (σ := ParamAttrs) (fun n v c st =>
        match n with
        | "len" => some (c, { st with len := some v })
        | "altlen" => some (c, { st with altlen := some v })
        | "externsync" => some (c, { st with externsync := some v })
        | "optional" => some (c, { st with optional := some v })
        | "noautovalidity" => some (c, { st with noautovalidity := some v })
        | "objecttype" => some (c, { st with objecttype := some v })
        | "validstructs" => some (c, { st with validstructs := some v })
        | _ => none) attrs c {}
      let pa := p.2
      let validstructs := match pa.validstructs with
        | some structs => rsSplitOnChar structs ','
        | none => []
      let code1 := if st.params.isEmpty then st.code else st.code ++ ", "
      match parse_name_with_type breakHook p.1 code1 pa.len pa.altlen pa.externsync
        pa.optional pa.noautovalidity pa.objecttype () with
      | none => .panicked
      | some (od, c, code2, _) =>
        match od with
        | some definition =>
          .next c
            { st with code := code2, params := st.params ++ [⟨definition, validstructs⟩] }
        | none => .next c { st with code := code2 }
    | "alias" =>
      let p := matchAttributes (σ := Option String) (fun n v c _a =>
        match n with
        | "name" => some (c, some v)
        | _ => none) attrs c st.alias_
      .next (consumeCurrentElement p.1) { st with alias_ := p.2 }
    | "description" =>
      let p := parse_text_element c
      .next p.2 { st with description := some p.1 }
    | "implicitexternsyncparams" =>
      match matchElements (σ := List String) (fun n _ c l =>
        match n with
        | "param" =>
          let p := parse_text_element c
          .next p.2 (l ++ [p.1])
        | _ => .unmatched) c st.implicitexternsyncparams with
      | none => .panicked
      | some (c, l) => .next c { st with implicitexternsyncparams := l }
    | _ => .unmatched

/-- `parse_command`: an alias command, or a full definition with a prototype,
parameters and a reconstructed C prototype string. -/
def parse_command (c : Ctx) (attributes : List XmlAttribute) :
    Option (Option Command × Ctx) := do
  let p := matchAttributes (σ := CommandAttrs) (fun n v c st =>
    match n with
    | "name" => some (c, { st with name := some v })
    | "alias" => some (c, { st with alias_ := some v })
    | "queues" => some (c, { st with queues := some v })
    | "successcodes" => some (c, { st with successcodes := some v })
    | "errorcodes" => some (c, { st with errorcodes := some v })
    | "renderpass" => some (c, { st with renderpass := some v })
    | "videocoding" => some (c, { st with videocoding := some v })
    | "cmdbufferlevel" => some (c, { st with cmdbufferlevel := some v })
    | "pipeline" => some (c, { st with pipeline := some v })
    | "comment" => some (c, { st with comment := some v })
    | _ => none) attributes c {}
  let c := p.1
  let st := p.2
  match st.alias_ with
  | some alias_ =>
    match st.name with
    | none =>
      some (none, { c with errors := c.errors ++ [.MissingAttribute c.xpath "name"] })
    | some name => some (some (.Alias alias_ name), consumeCurrentElement c)
  | none =>
    let q ← matchElements commandBodyHandler c {}
    let (c, bst) := q
    let code := bst.code ++ ");"
    match bst.proto with
    | none =>
      some (none, { c with errors := c.errors ++ [.MissingElement c.xpath "proto"] })
    | some proto =>
      some (some (.Definition
        { queues := st.queues, successcodes := st.successcodes,
          errorcodes := st.errorcodes, renderpass := st.renderpass,
          videocoding := st.videocoding, cmdbufferlevel := st.cmdbufferlevel,
          pipeline := st.pipeline, comment := st.comment, proto,
          params := bst.params, alias_ := bst.alias_,
          description := bst.description,
          implicitexternsyncparams := bst.implicitexternsyncparams, code }), c)

/-! ## Features, extensions and interface items -/

/-- `parse_interface_item`: a `comment` / `type` / `enum` / `command` item of a
require/remove block; an unknown name logs `UnexpectedElement` and returns
nothing (without consuming the subtree, as in the source). -/
def parse_interface_item (c : Ctx) (name : String) (attributes : List XmlAttribute) :
    Option InterfaceItem × Ctx :=
  match name with
  | "comment" =>
    let p := parse_text_element c
    (some (.Comment p.1), p.2)
  | "type" =>
    let p := matchAttributes (σ := Option String × Option String) (fun n v c st =>
      match n with
      | "name" => some (c, (some v, st.2))
      | "comment" => some (c, (st.1, some v))
      | _ => none) attributes c (none, none)
    match p.2.1 with
    | none =>
      (none, { p.1 with errors := p.1.errors ++ [.MissingAttribute p.1.xpath "name"] })
    | some nm => (some (.Type nm p.2.2), consumeCurrentElement p.1)
  | "enum" =>
    let p := parse_enum c attributes
    (p.1.map .Enum, p.2)
  | "command" =>
    let p := matchAttributes (σ := Option String × Option String) (fun n v c st =>
      match n with
      | "name" => some (c, (some v, st.2))
      | "comment" => some (c, (st.1, some v))
      | _ => none) attributes c (none, none)
    match p.2.1 with
    | none =>
      (none, { p.1 with errors := p.1.errors ++ [.MissingAttribute p.1.xpath "name"] })
    | some nm => (some (.Command nm p.2.2), consumeCurrentElement p.1)
  | _ =>
    (none, { c with errors := c.errors ++ [.UnexpectedElement c.xpath name] })

/-- The child loop shared by `parse_extension_item_require` and `…_remove`
(every start tag goes through `parse_interface_item`, no default skip). -/
def extItemsGo : Nat → Ctx → List InterfaceItem → Option (Ctx × List InterfaceItem)
  | 0, _, _ => none
  | fuel + 1, c, items =>
    match ctxNext c with
    | (none, c) => some (c, items)
    | (some e, c) =>
      match e with
      | .StartElement name attrs =>
        let c := pushElement c name
        let p := parse_interface_item c name attrs
        let items := match p.1 with
          | some v => items ++ [v]
          | none => items
        extItemsGo fuel p.2 items
      | .EndElement => some (popElement c, items)
      | _ => extItemsGo fuel c items

/-- Attribute state of a require block. -/
structure RequireAttrs where
  api : Option String := none
  profile : Option String := none
  extension : Option String := none
  feature : Option String := none
  comment : Option String := none
  deriving Repr

/-- `parse_extension_item_require`. -/
def parse_extension_item_require (c : Ctx) (attributes : List XmlAttribute) :
    Option (ExtensionChild × Ctx) := do
  let p := matchAttributes (σ := RequireAttrs) (fun n v c st =>
    match n with
    | "api" => some (c, { st with api := some v })
    | "profile" => some (c, { st with profile := some v })
    | "extension" => some (c, { st with extension := some v })
    | "feature" => some (c, { st with feature := some v })
    | "comment" => some (c, { st with comment := some v })
    | _ => none) attributes c {}
  let q ← extItemsGo (p.1.events.length + 1) p.1 []
  let a := p.2
  return (.Require a.api a.profile a.extension a.feature a.comment q.2, q.1)

/-- `parse_extension_item_remove`. -/
def parse_extension_item_remove (c : Ctx) (attributes : List XmlAttribute) :
    Option (ExtensionChild × Ctx) := do
  let p := matchAttributes (σ := Option String × Option String × Option String)
    (fun n v c st =>
      match n with
      | "api" => some (c, (some v, st.2))
      | "profile" => some (c, (st.1, some v, st.2.2))
      | "comment" => some (c, (st.1, st.2.1, some v))
      | _ => none) attributes c (none, none, none)
  let q ← extItemsGo (p.1.events.length + 1) p.1 []
  return (.Remove p.2.1 p.2.2.1 p.2.2.2 q.2, q.1)

/-- The require/remove child arms shared by `parse_feature` and
`parse_extension`. -/
def requireRemoveHandler :
    String → List XmlAttribute → Ctx → List ExtensionChild →
      HandlerResult (List ExtensionChild) :=
  fun n attrs c children =>
    match n with
    | "require" =>
      match parse_extension_item_require c attrs with
      | some (v, c) => .next c (children ++ [v])
      | none => .panicked
    | "remove" =>
      match parse_extension_item_remove c attrs with
      | some (v, c) => .next c (children ++ [v])
      | none => .panicked
    | _ => .unmatched

/-- Attribute state of `parse_feature`. -/
structure FeatureAttrs where
  api : Option String := none
  name : Option String := none
  number : Option String := none
  protect : Option String := none
  comment : Option String := none
  deriving Repr

/-- `parse_feature` (the required attributes are checked after the child
loop, so their diagnostics carry the already-popped breadcrumb). -/
def parse_feature (c : Ctx) (attributes : List XmlAttribute) :
    Option (Option RegistryChild × Ctx) := do
  let p := matchAttributes (σ := FeatureAttrs) (fun n v c st =>
    match n with
    | "api" => some (c, { st with api := some v })
    | "name" => some (c, { st with name := some v })
    | "number" => some (c, { st with number := some v })
    | "protect" => some (c, { st with protect := some v })
    | "comment" => some (c, { st with comment := some v })
    | _ => none) attributes c {}
  let q ← matchElements requireRemoveHandler p.1 []
  let (c, children) := q
  let a := p.2
  match a.api with
  | none =>
    return (none, { c with errors := c.errors ++ [.MissingAttribute c.xpath "api"] })
  | some api =>
  match a.name with
  | none =>
    return (none, { c with errors := c.errors ++ [.MissingAttribute c.xpath "name"] })
  | some name =>
  match a.number with
  | none =>
    return (none, { c with errors := c.errors ++ [.MissingAttribute c.xpath "number"] })
  | some number =>
    return (some (.Feature ⟨api, name, number, a.protect, a.comment, children⟩), c)

/-- Attribute state of `parse_extension`. -/
structure ExtensionAttrs where
  name : Option String := none
  comment : Option String := none
  number : Option String := none
  protect : Option String := none
  platform : Option String := none
  author : Option String := none
  contact : Option String := none
  ext_type : Option String := none
  requires_ : Option String := none
  requires_core : Option String := none
  supported : Option String := none
  deprecatedby : Option String := none
  promotedto : Option String := none
  obsoletedby : Option String := none
  provisional : Option String := none
  specialuse : Option String := none
  sortorder : Option String := none
  deriving Repr

/-- `parse_extension` (a missing `name` returns before the child loop, leaving
the subtree unconsumed, as in the source). -/
def parse_extension (c : Ctx) (attributes : List XmlAttribute) :
    Option (Option Extension × Ctx) := do
  let p := matchAttributes (σ := ExtensionAttrs) (fun n v c st =>
    match n with
    | "name" => some (c, { st with name := some v })
    | "comment" => some (c, { st with comment := some v })
    | "number" => some (c, { st with number := some v })
    | "protect" => some (c, { st with protect := some v })
    | "platform" => some (c, { st with platform := some v })
    | "author" => some (c, { st with author := some v })
    | "contact" => some (c, { st with contact := some v })
    | "type" => some (c, { st with ext_type := some v })
    | "requires" => some (c, { st with requires_ := some v })
    | "requiresCore" => some (c, { st with requires_core := some v })
    | "supported" => some (c, { st with supported := some v })
    | "deprecatedby" => some (c, { st with deprecatedby := some v })
    | "promotedto" => some (c, { st with promotedto := some v })
    | "provisional" => some (c, { st with provisional := some v })
    | "obsoletedby" => some (c, { st with obsoletedby := some v })
    | "specialuse" => some (c, { st with specialuse := some v })
    | "sortorder" => some (c, { st with sortorder := some v })
    | _ => none) attributes c {}
  let c := p.1
  let a := p.2
  let nres : Option Int × Ctx := match a.number with
    | some text => parse_integer c text
    | none => (none, c)
  let (number, c) := nres
  let pres : Bool × Ctx := match a.provisional with
    | some value =>
      if value = "true" then (true, c)
      else
        (false, { c with errors := c.errors ++
          [.SchemaViolation c.xpath
            ("Unexpected value of provisional attribute: " ++ value)] })
    | none => (false, c)
  let (provisional, c) := pres
  let sres : Option Int × Ctx := match a.sortorder with
    | some text => parse_integer c text
    | none => (none, c)
  let (sortorder, c) := sres
  match a.name with
  | none =>
    return (none, { c with errors := c.errors ++ [.MissingAttribute c.xpath "name"] })
  | some name =>
    let q ← matchElements requireRemoveHandler c []
    let (c, children) := q
    return (some
      { name, comment := a.comment, number, protect := a.protect,
        platform := a.platform, author := a.author, contact := a.contact,
        ext_type := a.ext_type, requires_ := a.requires_,
        requires_core := a.requires_core, supported := a.supported,
        deprecatedby := a.deprecatedby, promotedto := a.promotedto,
        obsoletedby := a.obsoletedby, provisional, specialuse := a.specialuse,
        sortorder, children }, c)

/-- `parse_extensions`. -/
def parse_extensions (c : Ctx) (attributes : List XmlAttribute) :
    Option (RegistryChild × Ctx) := do
  let p := matchAttributes (σ := Option String) (fun n v c _st =>
    match n with
    | "comment" => some (c, some v)
    | _ => none) attributes c none
  let q ← matchElements (σ := List Extension) (fun n a c children =>
    match n with
    | "extension" =>
      match parse_extension c a with
      | some (some v, c) => .next c (children ++ [v])
      | some (none, c) => .next c children
      | none => .panicked
    | _ => .unmatched) p.1 []
  return (.Extensions ⟨p.2, q.2⟩, q.1)

/-! ## The `<formats>` family -/

/-- Attribute state of `parse_format_component`. -/
structure ComponentAttrs where
  name : Option String := none
  bits : Option String := none
  numericFormat : Option String := none
  planeIndex : Option String := none
  deriving Repr

/-- `parse_format_component`. -/
def parse_format_component (c : Ctx) (attributes : List XmlAttribute) :
    Option FormatChild × Ctx :=
  let p := matchAttributes (σ := ComponentAttrs) (fun n v c st =>
    match n with
    | "name" => some (c, { st with name := some v })
    | "bits" => some (c, { st with bits := some v })
    | "numericFormat" => some (c, { st with numericFormat := some v })
    | "planeIndex" => some (c, { st with planeIndex := some v })
    | _ => none) attributes c {}
  let c := p.1
  let a := p.2
  match a.name with
  | none => (none, { c with errors := c.errors ++ [.MissingAttribute c.xpath "name"] })
  | some name =>
  match a.bits with
  | none => (none, { c with errors := c.errors ++ [.MissingAttribute c.xpath "bits"] })
  | some bits =>
  match a.numericFormat with
  | none =>
    (none, { c with errors := c.errors ++ [.MissingAttribute c.xpath "numericFormat"] })
  | some numericFormat =>
    let c := consumeCurrentElement c
    match a.planeIndex with
    | some v =>
      match parse_int_attribute (2 ^ 8) c v "planeIndex" with
      | (some pi, c) => (some (.Component name bits numericFormat (some pi)), c)
      | (none, c) => (none, c)
    | none => (some (.Component name bits numericFormat none), c)

/-- Attribute state of `parse_format_plane`. -/
structure PlaneAttrs where
  index : Option String := none
  widthDivisor : Option String := none
  heightDivisor : Option String := none
  compatible : Option String := none
  deriving Repr

/-- `parse_format_plane`. -/
def parse_format_plane (c : Ctx) (attributes : List XmlAttribute) :
    Option FormatChild × Ctx :=
  let p := matchAttributes (σ := PlaneAttrs) (fun n v c st =>
    match n with
    | "index" => some (c, { st with index := some v })
    | "widthDivisor" => some (c, { st with widthDivisor := some v })
    | "heightDivisor" => some (c, { st with heightDivisor := some v })
    | "compatible" => some (c, { st with compatible := some v })
    | _ => none) attributes c {}
  let c := p.1
  let a := p.2
  match a.index with
  | none => (none, { c with errors := c.errors ++ [.MissingAttribute c.xpath "index"] })
  | some indexT =>
  match a.widthDivisor with
  | none =>
    (none, { c with errors := c.errors ++ [.MissingAttribute c.xpath "widthDivisor"] })
  | some widthT =>
  match a.heightDivisor with
  | none =>
    (none, { c with errors := c.errors ++ [.MissingAttribute c.xpath "heightDivisor"] })
  | some heightT =>
  match a.compatible with
  | none =>
    (none, { c with errors := c.errors ++ [.MissingAttribute c.xpath "compatible"] })
  | some compatible =>
    let c := consumeCurrentElement c
    match parse_int_attribute (2 ^ 8) c indexT "index" with
    | (none, c) => (none, c)
    | (some index, c) =>
    match parse_int_attribute (2 ^ 8) c widthT "widthDivisor" with
    | (none, c) => (none, c)
    | (some widthDivisor, c) =>
    match parse_int_attribute (2 ^ 8) c heightT "heightDivisor" with
    | (none, c) => (none, c)
    | (some heightDivisor, c) =>
      (some (.Plane index widthDivisor heightDivisor compatible), c)

/-- `parse_format_spirvimageformat`. -/
def parse_format_spirvimageformat (c : Ctx) (attributes : List XmlAttribute) :
    Option FormatChild × Ctx :=
  let p := matchAttributes (σ := Option String) (fun n v c _st =>
    match n with
    | "name" => some (c, some v)
    | _ => none) attributes c none
  match p.2 with
  | none =>
    (none, { p.1 with errors := p.1.errors ++ [.MissingAttribute p.1.xpath "name"] })
  | some name => (some (.SpirvImageFormat name), consumeCurrentElement p.1)

/-- Attribute state of `parse_format`. -/
structure FormatAttrs where
  name : Option String := none
  class_ : Option String := none
  blockSize : Option String := none
  texelsPerBlock : Option String := none
  blockExtent : Option String := none
  packed : Option String := none
  compressed : Option String := none
  chroma : Option String := none
  deriving Repr

/-- `parse_format`: the required attributes are unwrapped before the child
loop; the numeric conversions run after it (their `ParseIntError` diagnostics
carry the popped breadcrumb plus an attribute qualifier). -/
def parse_format (c : Ctx) (attributes : List XmlAttribute) :
    Option (Option Format × Ctx) := do
  let p := matchAttributes (σ := FormatAttrs) (fun n v c st =>
    match n with
    | "name" => some (c, { st with name := some v })
    | "class" => some (c, { st with class_ := some v })
    | "blockSize" => some (c, { st with blockSize := some v })
    | "texelsPerBlock" => some (c, { st with texelsPerBlock := some v })
    | "blockExtent" => some (c, { st with blockExtent := some v })
    | "packed" => some (c, { st with packed := some v })
    | "compressed" => some (c, { st with compressed := some v })
    | "chroma" => some (c, { st with chroma := some v })
    | _ => none) attributes c {}
  let c := p.1
  let a := p.2
  match a.name with
  | none =>
    return (none, { c with errors := c.errors ++ [.MissingAttribute c.xpath "name"] })
  | some name =>
  match a.class_ with
  | none =>
    return (none, { c with errors := c.errors ++ [.MissingAttribute c.xpath "class"] })
  | some class_ =>
  match a.blockSize with
  | none =>
    return (none, { c with errors := c.errors ++ [.MissingAttribute c.xpath "blockSize"] })
  | some blockSizeT =>
  match a.texelsPerBlock with
  | none =>
    return (none,
      { c with errors := c.errors ++ [.MissingAttribute c.xpath "texelsPerBlock"] })
  | some texelsT =>
    let q ← matchElements (σ := List FormatChild) (fun n at_ c children =>
      match n with
      | "component" =>
        let r := parse_format_component c at_
        .next r.2 (match r.1 with | some v => children ++ [v] | none => children)
      | "plane" =>
        let r := parse_format_plane c at_
        .next r.2 (match r.1 with | some v => children ++ [v] | none => children)
      | "spirvimageformat" =>
        let r := parse_format_spirvimageformat c at_
        .next r.2 (match r.1 with | some v => children ++ [v] | none => children)
      | _ => .unmatched) c []
    let (c, children) := q
    let r1 := parse_int_attribute (2 ^ 8) c blockSizeT "blockSize"
    let r2 := parse_int_attribute (2 ^ 8) r1.2 texelsT "texelsPerBlock"
    let r3 : Option (Option Nat) × Ctx := match a.packed with
      | some v =>
        let r := parse_int_attribute (2 ^ 8) r2.2 v "packed"
        (some r.1, r.2)
      | none => (none, r2.2)
    let c := r3.2
    match r1.1 with
    | none => return (none, c)
    | some blockSize =>
    match r2.1 with
    | none => return (none, c)
    | some texelsPerBlock =>
    match r3.1 with
    | some none => return (none, c)
    | some (some pk) =>
      return (some
        { name, class_, blockSize, texelsPerBlock, blockExtent := a.blockExtent,
          packed := some pk, compressed := a.compressed, chroma := a.chroma,
          children }, c)
    | none =>
      return (some
        { name, class_, blockSize, texelsPerBlock, blockExtent := a.blockExtent,
          packed := none, compressed := a.compressed, chroma := a.chroma,
          children }, c)

/-- The `format` child arm of `parse_formats`. -/
def formatsHandler :
    String → List XmlAttribute → Ctx → List Format → HandlerResult (List Format) :=
  fun n a c children =>
    match n with
    | "format" =>
      match parse_format c a with
      | some (some v, c) => .next c (children ++ [v])
      | some (none, c) => .next c children
      | none => .panicked
    | _ => .unmatched

/-- `parse_formats`: never looks at the element attributes; the comment field
of the resulting section is always `None`. -/
def parse_formats (c : Ctx) : Option (RegistryChild × Ctx) := do
  let q ← matchElements formatsHandler c []
  return (.Formats ⟨none, q.2⟩, q.1)

/-! ## The SPIR-V tables -/

/-- Attribute state of `parse_enable`. -/
structure EnableAttrs where
  version : Option String := none
  extension : Option String := none
  struct_ : Option String := none
  feature : Option String := none
  requires_ : Option String := none
  alias_ : Option String := none
  property : Option String := none
  member : Option String := none
  value : Option String := none
  deriving Repr

/-- `parse_enable`; an attribute combination matching none of the four forms is
the `unimplemented!` panic of the source. -/
def parse_enable (c : Ctx) (attributes : List XmlAttribute) :
    Option (Option Enable × Ctx) := do
  let p := matchAttributes (σ := EnableAttrs) (fun n v c st =>
    match n with
    | "version" => some (c, { st with version := some v })
    | "extension" => some (c, { st with extension := some v })
    | "struct" => some (c, { st with struct_ := some v })
    | "feature" => some (c, { st with feature := some v })
    | "requires" => some (c, { st with requires_ := some v })
    | "alias" => some (c, { st with alias_ := some v })
    | "property" => some (c, { st with property := some v })
    | "member" => some (c, { st with member := some v })
    | "value" => some (c, { st with value := some v })
    | _ => none) attributes c {}
  let c := consumeCurrentElement p.1
  let a := p.2
  match a.version with
  | some version => return (some (.Version version), c)
  | none =>
  match a.extension with
  | some extension => return (some (.Extension extension), c)
  | none =>
  match a.struct_ with
  | some struct_ =>
    match a.feature with
    | none =>
      return (none, { c with errors := c.errors ++ [.MissingAttribute c.xpath "feature"] })
    | some feature =>
      return (some (.Feature ⟨struct_, feature, a.requires_, a.alias_⟩), c)
  | none =>
  match a.property with
  | some property =>
    match a.member with
    | none =>
      return (none, { c with errors := c.errors ++ [.MissingAttribute c.xpath "member"] })
    | some member =>
    match a.value with
    | none =>
      return (none, { c with errors := c.errors ++ [.MissingAttribute c.xpath "value"] })
    | some value =>
      return (some (.Property ⟨property, member, value, a.requires_⟩), c)
  | none => none

/-- The `enable` child arm shared by the two SPIR-V table builders. -/
def enableHandler :
    String → List XmlAttribute → Ctx → List Enable → HandlerResult (List Enable) :=
  fun n a c enables =>
    match n with
    | "enable" =>
      match parse_enable c a with
      | some (some v, c) => .next c (enables ++ [v])
      | some (none, c) => .next c enables
      | none => .panicked
    | _ => .unmatched

/-- `parse_spirvextension`. -/
def parse_spirvextension (c : Ctx) (attributes : List XmlAttribute) :
    Option (Option SpirvExtension × Ctx) := do
  let p := matchAttributes (σ := Option String) (fun n v c _st =>
    match n with
    | "name" => some (c, some v)
    | _ => none) attributes c none
  let q ← matchElements enableHandler p.1 []
  let (c, enables) := q
  match p.2 with
  | none =>
    return (none, { c with errors := c.errors ++ [.MissingAttribute c.xpath "name"] })
  | some name => return (some ⟨name, enables⟩, c)

/-- `parse_spirvextensions`. -/
def parse_spirvextensions (c : Ctx) (attributes : List XmlAttribute) :
    Option (RegistryChild × Ctx) := do
  let p := matchAttributes (σ := Option String) (fun n v c _st =>
    match n with
    | "comment" => some (c, some v)
    | _ => none) attributes c none
  let q ← matchElements (σ := List SpirvExtension) (fun n a c children =>
    match n with
    | "spirvextension" =>
      match parse_spirvextension c a with
      | some (some v, c) => .next c (children ++ [v])
      | some (none, c) => .next c children
      | none => .panicked
    | _ => .unmatched) p.1 []
  return (.SpirvExtensions ⟨p.2, q.2⟩, q.1)

/-- `parse_spirvcapability`. -/
def parse_spirvcapability (c : Ctx) (attributes : List XmlAttribute) :
    Option (Option SpirvCapability × Ctx) := do
  let p := matchAttributes (σ := Option String) (fun n v c _st =>
    match n with
    | "name" => some (c, some v)
    | _ => none) attributes c none
  let q ← matchElements enableHandler p.1 []
  let (c, enables) := q
  match p.2 with
  | none =>
    return (none, { c with errors := c.errors ++ [.MissingAttribute c.xpath "name"] })
  | some name => return (some ⟨name, enables⟩, c)

/-- `parse_spirvcapabilities`. -/
def parse_spirvcapabilities (c : Ctx) (attributes : List XmlAttribute) :
    Option (RegistryChild × Ctx) := do
  let p := matchAttributes (σ := Option String) (fun n v c _st =>
    match n with
    | "comment" => some (c, some v)
    | _ => none) attributes c none
  let q ← matchElements (σ := List SpirvCapability) (fun n a c children =>
    match n with
    | "spirvcapability" =>
      match parse_spirvcapability c a with
      | some (some v, c) => .next c (children ++ [v])
      | some (none, c) => .next c children
      | none => .panicked
    | _ => .unmatched) p.1 []
  return (.SpirvCapabilities ⟨p.2, q.2⟩, q.1)

/-! ## The remaining sections and the registry root -/

/-- `parse_vendorids`. -/
def parse_vendorids (c : Ctx) (attributes : List XmlAttribute) :
    Option (RegistryChild × Ctx) := do
  let p := matchAttributes (σ := Option String) (fun n v c _st =>
    match n with
    | "comment" => some (c, some v)
    | _ => none) attributes c none
  let q ← matchElements (σ := List VendorId) (fun n a c children =>
    match n with
    | "vendorid" =>
      let r := parse_vendorid c a
      .next r.2 (match r.1 with | some v => children ++ [v] | none => children)
    | _ => .unmatched) p.1 []
  return (.VendorIds ⟨p.2, q.2⟩, q.1)

/-- `parse_tags`. -/
def parse_tags (c : Ctx) (attributes : List XmlAttribute) :
    Option (RegistryChild × Ctx) := do
  let p := matchAttributes (σ := Option String) (fun n v c _st =>
    match n with
    | "comment" => some (c, some v)
    | _ => none) attributes c none
  let q ← matchElements (σ := List Tag) (fun n a c children =>
    match n with
    | "tag" =>
      let r := parse_tag c a
      .next r.2 (match r.1 with | some v => children ++ [v] | none => children)
    | _ => .unmatched) p.1 []
  return (.Tags ⟨p.2, q.2⟩, q.1)

/-- Attribute state of the inline `<enums>` arm of `parse_registry`. -/
structure EnumsAttrs where
  name : Option String := none
  kind : Option String := none
  start : Option String := none
  end_ : Option String := none
  vendor : Option String := none
  comment : Option String := none
  bitwidth : Option String := none
  deriving Repr

/-- The second-level element arms of `parse_registry` (the `platforms`,
`types`, `enums` and `commands` bodies are inline in the source's
`match_elements!` invocation and are inlined here too). -/
def registryHandler :
    String → List XmlAttribute → Ctx → Registry → HandlerResult Registry :=
  fun name attrs c reg =>
    match name with
    | "comment" =>
      let p := parse_text_element c
      .next p.2 ⟨reg.children ++ [.Comment p.1]⟩
    | "vendorids" =>
      match parse_vendorids c attrs with
      | some (v, c) => .next c ⟨reg.children ++ [v]⟩
      | none => .panicked
    | "platforms" =>
      let p := matchAttributes (σ := Option String) (fun n v c _st =>
        match n with
        | "comment" => some (c, some v)
        | _ => none) attrs c none
      match matchElements (σ := List Platform) (fun n a c children =>
        match n with
        | "platform" =>
          let r := parse_platform c a
          .next r.2 (match r.1 with | some v => children ++ [v] | none => children)
        | _ => .unmatched) p.1 [] with
      | some (c, children) =>
        .next c ⟨reg.children ++ [.Platforms ⟨p.2, children⟩]⟩
      | none => .panicked
    | "tags" =>
      match parse_tags c attrs with
      | some (v, c) => .next c ⟨reg.children ++ [v]⟩
      | none => .panicked
    | "types" =>
      let p := matchAttributes (σ := Option String) (fun n v c _st =>
        match n with
        | "comment" => some (c, some v)
        | _ => none) attrs c none
      match matchElements (σ := List TypesChild) (fun n a c children =>
        match n with
        | "comment" =>
          let r := parse_text_element c
          .next r.2 (children ++ [.Comment r.1])
        | "type" =>
          match parse_type c a with
          | some (child, c) => .next c (children ++ [child])
          | none => .panicked
        | _ => .unmatched) p.1 [] with
      | some (c, children) => .next c ⟨reg.children ++ [.Types ⟨p.2, children⟩]⟩
      | none => .panicked
    | "enums" =>
      let p := matchAttributes (σ := EnumsAttrs) (fun n v c st =>
        match n with
        | "name" => some (c, { st with name := some v })
        | "type" => some (c, { st with kind := some v })
        | "start" => some (c, { st with start := some v })
        | "end" => some (c, { st with end_ := some v })
        | "vendor" => some (c, { st with vendor := some v })
        | "comment" => some (c, { st with comment := some v })
        | "bitwidth" => some (c, { st with bitwidth := some v })
        | _ => none) attrs c {}
      match matchElements (σ := List EnumsChild) (fun n a c children =>
        match n with
        | "enum" =>
          let r := parse_enum c a
          .next r.2 (match r.1 with | some v => children ++ [.Enum v] | none => children)
        | "unused" =>
          let r := parse_enums_child_unused c a
          .next r.2 (match r.1 with | some v => children ++ [v] | none => children)
        | "comment" =>
          let r := parse_text_element c
          .next r.2 (children ++ [.Comment r.1])
        | _ => .unmatched) p.1 [] with
      | some (c, children) =>
        let a := p.2
        let r1 : Option Int × Ctx := match a.start with
          | some v => parse_integer c v
          | none => (none, c)
        let r2 : Option Int × Ctx := match a.end_ with
          | some v => parse_integer r1.2 v
          | none => (none, r1.2)
        let r3 : Option Int × Ctx := match a.bitwidth with
          | some v => parse_integer r2.2 v
          | none => (none, r2.2)
        let bitwidth := r3.1.map (fun v => (v.emod (2 ^ 32)).toNat)
        .next r3.2 ⟨reg.children ++
          [.Enums ⟨a.name, a.kind, r1.1, r2.1, a.vendor, a.comment, children, bitwidth⟩]⟩
      | none => .panicked
    | "commands" =>
      let p := matchAttributes (σ := Option String) (fun n v c _st =>
        match n with
        | "comment" => some (c, some v)
        | _ => none) attrs c none
      match matchElements (σ := List Command) (fun n a c children =>
        match n with
        | "command" =>
          match parse_command c a with
          | some (some v, c) => .next c (children ++ [v])
          | some (none, c) => .next c children
          | none => .panicked
        | _ => .unmatched) p.1 [] with
      | some (c, children) => .next c ⟨reg.children ++ [.Commands ⟨p.2, children⟩]⟩
      | none => .panicked
    | "feature" =>
      match parse_feature c attrs with
      | some (some v, c) => .next c ⟨reg.children ++ [v]⟩
      | some (none, c) => .next c reg
      | none => .panicked
    | "extensions" =>
      match parse_extensions c attrs with
      | some (v, c) => .next c ⟨reg.children ++ [v]⟩
      | none => .panicked
    | "formats" =>
      match parse_formats c with
      | some (v, c) => .next c ⟨reg.children ++ [v]⟩
      | none => .panicked
    | "spirvextensions" =>
      match parse_spirvextensions c attrs with
      | some (v, c) => .next c ⟨reg.children ++ [v]⟩
      | none => .panicked
    | "spirvcapabilities" =>
      match parse_spirvcapabilities c attrs with
      | some (v, c) => .next c ⟨reg.children ++ [v]⟩
      | none => .panicked
    | _ => .unmatched

/-- `parse_registry`: assemble the top-level sections (the source function
always returns `Ok`; its `Result` type only mirrors the caller's). -/
def parse_registry (c : Ctx) : Option (Registry × Ctx) :=
  match matchElements registryHandler c ⟨[]⟩ with
  | some (c, reg) => some (reg, c)
  | none => none

/-- The document-level arm of `parse_xml`: only `registry` is handled. -/
def xmlRootHandler : String → List XmlAttribute → Ctx → Except FatalError Registry →
    HandlerResult (Except FatalError Registry) :=
  fun name _ c _result =>
    match name with
    | "registry" =>
      match parse_registry c with
      | some (reg, c) => .next c (.ok reg)
      | none => .panicked
    | _ => .unmatched

/-- `parse_xml`: the whole-document entry point behind `parse_file` and
`parse_stream`.  The result starts as the fatal `MissingRegistryElement` and
is replaced by the parsed registry when a `registry` element is handled. -/
def parse_xml (events : List XmlEvent) :
    Option (Except FatalError (Registry × List Err)) :=
  let c : Ctx := ⟨events, "", []⟩
  match matchElements xmlRootHandler c (.error .MissingRegistryElement) with
  | none => none
  | some (c, result) => some (result.map (fun r => (r, c.errors)))

/-! ## Auxiliary definitions for the statements

`Content` describes the well-formed body of an open element: a sequence of
complete (properly nested) items, with element names free of the breadcrumb
separator.  The observers below project parts of results for statements. -/

/-- A balanced run of events: the body of an element up to (not including) its
end tag. -/
inductive Content : List XmlEvent → Prop where
  | nil : Content []
  | elem {name : String} {attrs : List XmlAttribute} {inner rest : List XmlEvent}
      (hn : ('/' : Char) ∉ name.data) (hi : Content inner) (hr : Content rest) :
      Content (.StartElement name attrs :: inner ++ .EndElement :: rest)
  | chars (t : String) {rest : List XmlEvent} (h : Content rest) :
      Content (.Characters t :: rest)
  | ws (t : String) {rest : List XmlEvent} (h : Content rest) :
      Content (.Whitespace t :: rest)
  | other {rest : List XmlEvent} (h : Content rest) : Content (.Other :: rest)

/-- The location path carried by a diagnostic (`Internal` carries none). -/
def errXpath : Err → Option String
  | .MissingAttribute xpath _ => some xpath
  | .UnexpectedAttribute xpath _ => some xpath
  | .UnexpectedAttributeValue xpath _ _ => some xpath
  | .MissingElement xpath _ => some xpath
  | .UnexpectedElement xpath _ => some xpath
  | .MissingCharacters xpath => some xpath
  | .SchemaViolation xpath _ => some xpath
  | .ParseIntError xpath _ => some xpath
  | .Internal _ => none

/-- The errors carried by an element-routing handler answer. -/
def handlerErrors {σ : Type} : HandlerResult σ → List Err
  | .next c _ => c.errors
  | _ => []

/-- Canonical attribute list of an `<enum>` element for the exclusivity
statements: a `name` plus any subset of `offset`, `bitpos`, `value`, `alias`,
`extends`. -/
def mkEnumAttrs (name : String) (offset bitpos value alias_ extends_ : Option String) :
    List XmlAttribute :=
  ⟨"name", name⟩ ::
    ((offset.map (⟨"offset", ·⟩)).toList ++ (bitpos.map (⟨"bitpos", ·⟩)).toList ++
      (value.map (⟨"value", ·⟩)).toList ++ (alias_.map (⟨"alias", ·⟩)).toList ++
      (extends_.map (⟨"extends", ·⟩)).toList)

/-- Canonical attribute list of a `<vendorid>` element. -/
def mkVendoridAttrs (name id : Option String) : List XmlAttribute :=
  (name.map (⟨"name", ·⟩)).toList ++ (id.map (⟨"id", ·⟩)).toList

instance {ε α : Type} [DecidableEq ε] [DecidableEq α] : DecidableEq (Except ε α) :=
  fun a b =>
    match a, b with
    | .error e1, .error e2 =>
      if h : e1 = e2 then .isTrue (by rw [h]) else .isFalse (fun h2 => h (by injection h2))
    | .ok a1, .ok a2 =>
      if h : a1 = a2 then .isTrue (by rw [h]) else .isFalse (fun h2 => h (by injection h2))
    | .error _, .ok _ => .isFalse (fun h2 => Except.noConfusion h2)
    | .ok _, .error _ => .isFalse (fun h2 => Except.noConfusion h2)

/-! ## Core lemmas: the breadcrumb, subtree skipping, and the dispatch loop -/

theorem dropWhile_ne_slash (l m : List Char) (h : ∀ c ∈ l, c ≠ '/') :
    (l ++ '/' :: m).dropWhile (fun c => c ≠ '/') = '/' :: m := by
  induction l with
  | nil => simp [List.dropWhile]
  | cons a l ih =>
    have ha : a ≠ '/' := h a (by simp)
    have ht := ih (fun c hc => h c (by simp [hc]))
    simp only [decide_not] at ht
    simp only [List.cons_append, List.dropWhile_cons]
    simp [ha, ht]

theorem xpathPop_push (x n : String) (h : ('/' : Char) ∉ n.data) :
    xpathPop (x ++ "/" ++ n) = some x := by
  unfold xpathPop
  have hd : (x ++ "/" ++ n).data = x.data ++ '/' :: n.data := by
    simp [String.data_append]
  rw [hd]
  have hrev : (x.data ++ '/' :: n.data).reverse = n.data.reverse ++ '/' :: x.data.reverse := by
    simp
  rw [hrev, dropWhile_ne_slash _ _ (fun c hc hc2 => h (hc2 ▸ List.mem_reverse.mp hc))]
  simp

theorem popElement_push (evs : List XmlEvent) (x n : String) (e : List Err)
    (h : ('/' : Char) ∉ n.data) :
    popElement ⟨evs, x ++ "/" ++ n, e⟩ = ⟨evs, x, e⟩ := by
  unfold popElement
  simp [xpathPop_push x n h]

theorem popElement_events (c : Ctx) : (popElement c).events = c.events := by
  unfold popElement
  split <;> rfl

theorem consumeGo_content {evs : List XmlEvent} (h : Content evs) :
    ∀ (d : Nat) (tail : List XmlEvent) (x : String) (e : List Err),
      consumeGo (d + 1) (evs ++ .EndElement :: tail) x e =
        if d = 0 then popElement ⟨tail, x, e⟩
        else consumeGo d tail (popElement ⟨tail, x, e⟩).xpath (popElement ⟨tail, x, e⟩).errors := by
  induction h with
  | nil =>
    intro d tail x e
    simp [consumeGo]
  | elem hn hi hr ih_i ih_r =>
    intro d tail x e
    rename_i name attrs inner rest
    have hsh : (XmlEvent.StartElement name attrs :: inner ++ XmlEvent.EndElement :: rest)
        ++ XmlEvent.EndElement :: tail =
        XmlEvent.StartElement name attrs ::
          (inner ++ XmlEvent.EndElement :: (rest ++ XmlEvent.EndElement :: tail)) := by
      simp
    rw [hsh]
    show consumeGo (d + 1 + 1)
      (inner ++ XmlEvent.EndElement :: (rest ++ XmlEvent.EndElement :: tail))
      (x ++ "/" ++ name) e = _
    rw [ih_i (d + 1) (rest ++ XmlEvent.EndElement :: tail) (x ++ "/" ++ name) e]
    simp only [Nat.succ_ne_zero, if_false]
    rw [popElement_push _ _ _ _ hn]
    exact ih_r d tail x e
  | chars t _ ih =>
    intro d tail x e
    simpa [consumeGo] using ih d tail x e
  | ws t _ ih =>
    intro d tail x e
    simpa [consumeGo] using ih d tail x e
  | other _ ih =>
    intro d tail x e
    simpa [consumeGo] using ih d tail x e

theorem consumeCurrentElement_content {inner rest : List XmlEvent} {x : String}
    {e : List Err} (h : Content inner) :
    consumeCurrentElement ⟨inner ++ .EndElement :: rest, x, e⟩ = popElement ⟨rest, x, e⟩ := by
  simpa [consumeCurrentElement] using consumeGo_content h 0 rest x e

theorem consumeGo_suffix (evs : List XmlEvent) : ∀ (d : Nat) (x : String) (e : List Err),
    (consumeGo d evs x e).events <:+ evs := by
  induction evs with
  | nil => intro d x e; simp [consumeGo]
  | cons ev rest ih =>
    intro d x e
    cases ev with
    | StartElement n a =>
      exact (ih (d + 1) (x ++ "/" ++ n) e).trans (List.suffix_cons _ rest)
    | EndElement =>
      show (if d - 1 = 0 then _ else _ : Ctx).events <:+ _
      split
      · rw [popElement_events]
        exact List.suffix_cons _ rest
      · exact (ih _ _ _).trans (List.suffix_cons _ rest)
    | Characters t => exact (ih d x e).trans (List.suffix_cons _ rest)
    | Whitespace t => exact (ih d x e).trans (List.suffix_cons _ rest)
    | Other => exact (ih d x e).trans (List.suffix_cons _ rest)

theorem consumeCurrentElement_suffix (c : Ctx) :
    (consumeCurrentElement c).events <:+ c.events :=
  consumeGo_suffix c.events 1 c.xpath c.errors

theorem matchElementsGo_unmatched_step {σ : Type}
    (h : String → List XmlAttribute → Ctx → σ → HandlerResult σ)
    (fuel : Nat) (c : Ctx) (s : σ) (name : String) (attrs : List XmlAttribute)
    (inner rest : List XmlEvent) (hC : Content inner) (hn : ('/' : Char) ∉ name.data)
    (hev : c.events = .StartElement name attrs :: (inner ++ .EndElement :: rest))
    (hh : h name attrs
      (pushElement { c with events := inner ++ .EndElement :: rest } name) s = .unmatched) :
    matchElementsGo h (fuel + 1) c s =
      matchElementsGo h fuel
        { events := rest, xpath := c.xpath,
          errors := c.errors ++ [.UnexpectedElement (c.xpath ++ "/" ++ name) name] } s := by
  rw [matchElementsGo, hev]
  simp only []
  rw [hh]
  have hcc : ({ pushElement { c with events := inner ++ XmlEvent.EndElement :: rest } name
      with errors :=
        (pushElement { c with events := inner ++ XmlEvent.EndElement :: rest } name).errors
          ++ [Err.UnexpectedElement
            (pushElement { c with events := inner ++ XmlEvent.EndElement :: rest } name).xpath
            name] } : Ctx) =
      ⟨inner ++ XmlEvent.EndElement :: rest, c.xpath ++ "/" ++ name,
        c.errors ++ [Err.UnexpectedElement (c.xpath ++ "/" ++ name) name]⟩ := by
    simp [pushElement]
  rw [hcc, consumeCurrentElement_content hC, popElement_push _ _ _ _ hn]

theorem xmlRootHandler_ne (name : String) (a : List XmlAttribute) (c : Ctx)
    (s : Except FatalError Registry) (h : name ≠ "registry") :
    xmlRootHandler name a c s = .unmatched := by
  unfold xmlRootHandler
  split
  · exact absurd rfl h
  · rfl

/-- The recognized second-level element names of `parse_registry`. -/
def registrySectionNames : List String :=
  ["comment", "vendorids", "platforms", "tags", "types", "enums", "commands",
    "feature", "extensions", "formats", "spirvextensions", "spirvcapabilities"]

theorem registryHandler_unmatched (name : String) (a : List XmlAttribute) (c : Ctx)
    (reg : Registry) (h : name ∉ registrySectionNames) :
    registryHandler name a c reg = .unmatched := by
  unfold registryHandler
  split <;> first
    | rfl
    | exact absurd (by simp [registrySectionNames]) h

theorem xmlRootHandler_next {n : String} {a : List XmlAttribute} {c : Ctx}
    {s : Except FatalError Registry} {c3 : Ctx} {s3 : Except FatalError Registry}
    (h : xmlRootHandler n a c s = .next c3 s3) : ∃ r, s3 = .ok r := by
  unfold xmlRootHandler at h
  split at h
  · split at h
    · rename_i reg c4 heq
      exact ⟨reg, (HandlerResult.next.injEq _ _ _ _ ▸ h).2.symm⟩
    · exact absurd h (by simp)
  · exact absurd h (by simp)

theorem xmlGo_no_registry : ∀ (fuel : Nat) (c : Ctx) (f : FatalError),
    c.events.length < fuel →
    (∀ attrs : List XmlAttribute, XmlEvent.StartElement "registry" attrs ∉ c.events) →
    ∃ c', matchElementsGo xmlRootHandler fuel c (.error f) = some (c', .error f) := by
  intro fuel
  induction fuel with
  | zero => intro c f hf _; exact absurd hf (Nat.not_lt_zero _)
  | succ fuel ih =>
    intro c f hf hno
    rw [matchElementsGo]
    cases hev : c.events with
    | nil => exact ⟨c, by simp⟩
    | cons ev rest =>
      cases ev with
      | StartElement nm attrs =>
        have hnm : nm ≠ "registry" := by
          intro heq
          exact hno attrs (by rw [hev, heq]; exact List.mem_cons_self _ _)
        simp only []
        rw [xmlRootHandler_ne _ _ _ _ hnm]
        have hrl : rest.length < fuel := by
          have := congrArg List.length hev
          simp at this
          omega
        have hcsuf := consumeCurrentElement_suffix
          { pushElement { c with events := rest } nm with
            errors := (pushElement { c with events := rest } nm).errors ++
              [Err.UnexpectedElement (pushElement { c with events := rest } nm).xpath nm] }
        have hsub := hcsuf.subset
        refine ih _ f ?_ ?_
        · exact lt_of_le_of_lt (List.IsSuffix.length_le hcsuf) hrl
        · intro attrs2 hmem
          exact hno attrs2 (by rw [hev]; exact List.mem_cons_of_mem _ (hsub hmem))
      | EndElement => exact ⟨popElement { c with events := rest }, by simp⟩
      | Characters t =>
        refine ih _ f ?_ ?_
        · have := congrArg List.length hev
          simp at this
          simp
          omega
        · intro attrs2 hmem
          exact hno attrs2 (by rw [hev]; exact List.mem_cons_of_mem _ hmem)
      | Whitespace t =>
        refine ih _ f ?_ ?_
        · have := congrArg List.length hev
          simp at this
          simp
          omega
        · intro attrs2 hmem
          exact hno attrs2 (by rw [hev]; exact List.mem_cons_of_mem _ hmem)
      | Other =>
        refine ih _ f ?_ ?_
        · have := congrArg List.length hev
          simp at this
          simp
          omega
        · intro attrs2 hmem
          exact hno attrs2 (by rw [hev]; exact List.mem_cons_of_mem _ hmem)

theorem xmlGo_ok : ∀ (fuel : Nat) (c : Ctx) (reg : Registry) (c' : Ctx)
    (s' : Except FatalError Registry),
    matchElementsGo xmlRootHandler fuel c (.ok reg) = some (c', s') →
    ∃ reg', s' = .ok reg' := by
  intro fuel
  induction fuel with
  | zero => intro c reg c' s' h; simp [matchElementsGo] at h
  | succ fuel ih =>
    intro c reg c' s' h
    rw [matchElementsGo] at h
    cases hev : c.events with
    | nil =>
      rw [hev] at h
      simp at h
      exact ⟨reg, h.2.symm⟩
    | cons ev rest =>
      rw [hev] at h
      cases ev with
      | StartElement nm attrs =>
        simp only [] at h
        rcases hh : xmlRootHandler nm attrs
            (pushElement { c with events := rest } nm) (.ok reg) with _ | _ | ⟨c3, s3⟩
        · rw [hh] at h
          exact ih _ reg _ _ h
        · rw [hh] at h
          exact absurd h (by simp)
        · rw [hh] at h
          obtain ⟨r, hr⟩ := xmlRootHandler_next hh
          subst hr
          exact ih _ r _ _ h
      | EndElement =>
        simp at h
        exact ⟨reg, h.2.symm⟩
      | Characters t => exact ih _ reg _ _ h
      | Whitespace t => exact ih _ reg _ _ h
      | Other => exact ih _ reg _ _ h

/-! ## The claims -/

/-- C2: for a well-formed body, the pointer-suffix text after the `<type>`
marker determines the pointer kind: `"* const*"` with a preceding pre-tag
`const` yields `Double{is_const:true, inner_is_const:true}`; `"**"` yields
`Double{is_const:false, inner_is_const:false}`; `"*"` alone yields
`Single{is_const:false}`; absent pointer text yields no pointer kind. -/
theorem c2_pointer_suffix_text :
    parse_post_type_tag_text "* const*" ⟨true, false⟩ =
      some (some (.Double true true), "") ∧
    parse_post_type_tag_text "**" ⟨false, false⟩ =
      some (some (.Double false false), "") ∧
    parse_post_type_tag_text "*" ⟨false, false⟩ =
      some (some (.Single false), "") ∧
    parse_post_type_tag_text "" ⟨false, false⟩ = some (none, "") := by
  decide

/-- C5: when the dispatch engine meets a child element whose name no arm of the
enclosing container handles, it logs exactly one `UnexpectedElement` diagnostic
at the extended breadcrumb, consumes the entire unmatched subtree without
contributing to the parent state, restores the breadcrumb to its depth before
the element, and continues the loop on the following siblings; the second
conjunct isolates the subtree-skip itself: `consume_current_element` consumes
exactly the balanced body plus the end tag and pops the breadcrumb back. -/
theorem c5_unrecognized_child_skipped {σ : Type}
    (h : String → List XmlAttribute → Ctx → σ → HandlerResult σ)
    (fuel : Nat) (c : Ctx) (s : σ) (name : String) (attrs : List XmlAttribute)
    (inner rest : List XmlEvent) (hC : Content inner) (hn : ('/' : Char) ∉ name.data)
    (hev : c.events = .StartElement name attrs :: (inner ++ .EndElement :: rest))
    (hh : h name attrs
      (pushElement { c with events := inner ++ .EndElement :: rest } name) s = .unmatched) :
    matchElementsGo h (fuel + 1) c s =
      matchElementsGo h fuel
        { events := rest, xpath := c.xpath,
          errors := c.errors ++ [.UnexpectedElement (c.xpath ++ "/" ++ name) name] } s ∧
    (∀ E : List Err,
      consumeCurrentElement ⟨inner ++ .EndElement :: rest, c.xpath ++ "/" ++ name, E⟩ =
        ⟨rest, c.xpath, E⟩) :=
  ⟨matchElementsGo_unmatched_step h fuel c s name attrs inner rest hC hn hev hh,
    fun E => by rw [consumeCurrentElement_content hC, popElement_push _ _ _ _ hn]⟩

/-- C5 witness: a concrete skip of an unknown `<bogus>` element with one text
child inside a known container. -/
theorem c5_unrecognized_child_skipped_witness :
    matchElementsGo (σ := Unit) (fun _ _ _ _ => .unmatched) 2
        ⟨[.StartElement "bogus" [], .Characters "x", .EndElement, .EndElement],
          "/registry", []⟩ () =
      matchElementsGo (fun _ _ _ _ => .unmatched) 1
        ⟨[.EndElement], "/registry",
          [.UnexpectedElement ("/registry" ++ "/" ++ "bogus") "bogus"]⟩ () ∧
    (∀ E : List Err,
      consumeCurrentElement ⟨[.Characters "x", .EndElement, .EndElement],
          "/registry" ++ "/" ++ "bogus", E⟩ =
        ⟨[.EndElement], "/registry", E⟩) := by
  have := c5_unrecognized_child_skipped (σ := Unit) (fun _ _ _ _ => .unmatched) 1
    ⟨[.StartElement "bogus" [], .Characters "x", .EndElement, .EndElement], "/registry", []⟩
    () "bogus" [] [.Characters "x"] [.EndElement]
    (Content.chars "x" Content.nil) (by decide) rfl rfl
  simpa using this

/-- C7 counterexample: the funcptr parser returns an empty parameter list for a
post-name text run that is not the literal `)(void);` (here `)(float);`), so
the detection is not by that literal; it is by the text ending in `;`. -/
theorem c7_counterexample :
    rsTrim ")(float);" ≠ ")(void);" ∧
    parse_type_funcptr ⟨[.Characters "typedef void (VKAPI_PTR *",
        .StartElement "name" [], .Characters "PFN_x", .EndElement,
        .Characters ")(float);"], "/registry/types/type", []⟩ =
      some (some
        ⟨{ name := "PFN_x", type_name := "void", pointer_kind := none,
           is_struct := false, bitfield_size := none, array_shape := none,
           dynamic_shape := none, externsync := none, optional := none,
           noautovalidity := none, objecttype := none }, []⟩,
        ⟨[], "/registry/types/type", []⟩) := by
  decide

/-- C7 amended: in the function-pointer typedef parser, an empty parameter list
is detected by the text run immediately after the return-type parse ending in a
semicolon (for well-formed registry documents this text is the literal
`)(void);`), in which case the result is a `TypeFunctionPointer` whose params
sequence is empty. -/
theorem c7_empty_params_detection (x : String) (E : List Err)
    (preText nm postText t1 t2 t3 t4 : String) (nattrs : List XmlAttribute)
    (rest : List XmlEvent)
    (h1 : stripPre (rsTrim preText) "typedef" = some t1)
    (h2 : stripSuf (rsTrimStart t1) "*" = some t2)
    (h3 : stripSuf (rsTrimEnd t2) "VKAPI_PTR" = some t3)
    (h4 : stripSuf (rsTrimEnd t3) "(" = some t4)
    (hsemi : rsEndsWithChar (rsTrim postText) ';' = true) :
    ∃ proto : NameWithType,
      parse_type_funcptr ⟨.Characters preText :: .StartElement "name" nattrs ::
          .Characters nm :: .EndElement :: .Characters postText :: rest, x, E⟩ =
        some (some ⟨proto, []⟩, ⟨rest, x, E⟩) ∧
      proto.name = "" ++ nm := by
  unfold parse_type_funcptr
  simp only [ctxNext]
  simp only [h1, h2, h3, h4, Option.some_bind]
  have hname : parse_text_element ⟨XmlEvent.Characters nm :: XmlEvent.EndElement ::
      XmlEvent.Characters postText :: rest, x ++ "/" ++ "name", E⟩ =
      ("" ++ nm, ⟨XmlEvent.Characters postText :: rest, x, E⟩) := by
    show (textGo 1 _ "" _ E) = _
    simp only [textGo]
    rw [popElement_push _ _ _ _ (by decide)]
    simp
  simp only [pushElement]
  rw [hname]
  simp only [h2, h3, h4, hsemi, Option.some_bind, Option.bind_eq_bind, if_true]
  exact ⟨_, rfl, rfl⟩

/-- C7 amended witness: the canonical `)(void);` case yields empty params. -/
theorem c7_empty_params_detection_witness :
    ∃ proto : NameWithType,
      parse_type_funcptr ⟨.Characters "typedef void (VKAPI_PTR *" ::
          .StartElement "name" [] :: .Characters "PFN_vkVoidFunction" ::
          .EndElement :: .Characters ")(void);" :: [], "/t", []⟩ =
        some (some ⟨proto, []⟩, ⟨[], "/t", []⟩) ∧
      proto.name = "" ++ "PFN_vkVoidFunction" :=
  c7_empty_params_detection "/t" [] "typedef void (VKAPI_PTR *"
    "PFN_vkVoidFunction" ")(void);" " void (VKAPI_PTR *" "void (VKAPI_PTR "
    "void (" "void " [] []
    (by decide) (by decide) (by decide) (by decide) (by decide)

/-- C8: `process_define_code` on the body of a simple object-like macro with no
recorded `<type>` references produces `Value("261")` with `is_disabled = false`,
`replace = false` and an empty parameter accumulator; with a non-empty `defref`
the same captured text is produced as an `Expression` instead. -/
theorem c8_define_value_vs_expression :
    process_define_code "#define VK_HEADER_VERSION 261" "VK_HEADER_VERSION" [] =
      some ⟨"VK_HEADER_VERSION", none, [], false, false, .Value "261"⟩ ∧
    (defineGo "VK_HEADER_VERSION" []
        ("#define VK_HEADER_VERSION 261".data.length + 1) .Initial
        "#define VK_HEADER_VERSION 261".data {}).map DefineSt.parameters = some [] ∧
    ∀ defref : List String, defref ≠ [] →
      process_define_code "#define VK_HEADER_VERSION 261" "VK_HEADER_VERSION" defref =
        some ⟨"VK_HEADER_VERSION", none, defref, false, false, .Expression "261"⟩ := by
  refine ⟨by decide, by decide, ?_⟩
  intro defref h
  match defref with
  | [] => exact absurd rfl h
  | d :: ds => rfl

/-- C8 witness: the expression branch at a concrete non-empty `defref`. -/
theorem c8_define_value_vs_expression_witness :
    process_define_code "#define VK_HEADER_VERSION 261" "VK_HEADER_VERSION"
        ["VkVersion"] =
      some ⟨"VK_HEADER_VERSION", none, ["VkVersion"], false, false,
        .Expression "261"⟩ :=
  c8_define_value_vs_expression.2.2 ["VkVersion"] (by decide)

/-- C4: `parse_xml` returns the fatal `MissingRegistryElement` when no
`registry` start tag occurs anywhere in the document; an unrecognized
second-level element under `<registry>` is skipped with an `UnexpectedElement`
diagnostic, the section loop continuing with the following siblings; and a
document whose root is a `registry` element never yields a fatal error: any
returned result is `Ok`. -/
theorem c4_missing_registry_vs_unknown_section :
    (∀ events : List XmlEvent,
      (∀ attrs : List XmlAttribute, XmlEvent.StartElement "registry" attrs ∉ events) →
      parse_xml events = some (.error .MissingRegistryElement)) ∧
    (∀ (name : String) (attrs : List XmlAttribute) (inner rest : List XmlEvent)
        (fuel : Nat) (c : Ctx) (reg : Registry),
      name ∉ registrySectionNames → ('/' : Char) ∉ name.data → Content inner →
      c.events = .StartElement name attrs :: (inner ++ .EndElement :: rest) →
      matchElementsGo registryHandler (fuel + 1) c reg =
        matchElementsGo registryHandler fuel
          { events := rest, xpath := c.xpath,
            errors := c.errors ++ [.UnexpectedElement (c.xpath ++ "/" ++ name) name] }
          reg) ∧
    (∀ (attrs : List XmlAttribute) (tail : List XmlEvent)
        (res : Except FatalError (Registry × List Err)),
      parse_xml (.StartElement "registry" attrs :: tail) = some res →
      ∃ pr, res = .ok pr) := by
  refine ⟨?_, ?_, ?_⟩
  · intro events hno
    obtain ⟨c', hc⟩ := xmlGo_no_registry (events.length + 1) ⟨events, "", []⟩
      .MissingRegistryElement (by simp) hno
    simp only [parse_xml, matchElements]
    rw [hc]
    rfl
  · intro name attrs inner rest fuel c reg hns hn hC hev
    exact matchElementsGo_unmatched_step registryHandler fuel c reg name attrs inner
      rest hC hn hev (registryHandler_unmatched _ _ _ _ hns)
  · intro attrs tail res h
    simp only [parse_xml, matchElements] at h
    split at h
    · exact absurd h (by simp)
    · rename_i c' result hgo
      rw [matchElementsGo] at hgo
      simp only [xmlRootHandler] at hgo
      split at hgo
      · rename_i c3 s3 heq
        split at heq
        · rename_i reg c4 hreg
          injection heq with heq1 heq2
          subst heq1
          subst heq2
          obtain ⟨reg', hok⟩ := xmlGo_ok _ _ _ _ _ hgo
          subst hok
          simp only [Except.map, Option.some.injEq] at h
          exact ⟨(reg', c'.errors), h.symm⟩
        · cases heq
      · exact absurd hgo (by simp)
      · rename_i heq
        split at heq <;> cases heq

/-- C4 witness: a registry-free document is fatal; a concrete `<bogus>` section
skip; a registry-rooted document yields `Ok`. -/
theorem c4_missing_registry_vs_unknown_section_witness :
    parse_xml [.StartElement "foo" [], .EndElement] =
      some (.error .MissingRegistryElement) ∧
    matchElementsGo registryHandler 2
        ⟨[.StartElement "bogus" [], .EndElement, .EndElement], "/registry", []⟩ ⟨[]⟩ =
      matchElementsGo registryHandler 1
        ⟨[.EndElement], "/registry",
          [.UnexpectedElement ("/registry" ++ "/" ++ "bogus") "bogus"]⟩ ⟨[]⟩ ∧
    ∃ pr, (Except.ok (⟨[]⟩, []) : Except FatalError (Registry × List Err)) = .ok pr := by
  refine ⟨?_, ?_, ?_⟩
  · exact c4_missing_registry_vs_unknown_section.1 _ (by intro attrs hmem; simp at hmem)
  · have := c4_missing_registry_vs_unknown_section.2.1 "bogus" [] [] [.EndElement] 1
      ⟨[.StartElement "bogus" [], .EndElement, .EndElement], "/registry", []⟩ ⟨[]⟩
      (by decide) (by decide) Content.nil rfl
    simpa using this
  · exact c4_missing_registry_vs_unknown_section.2.2 [] [.EndElement]
      (.ok (⟨[]⟩, [])) (by decide)

/-- C10 counterexample: the `<comment>` top-level section also never routes its
attributes — a `<comment foo="1">` under `<registry>` parses with an empty
diagnostics list — so it is not the case that every top-level section other
than `<formats>` logs `UnexpectedAttribute` for unknown attribute names. -/
theorem c10_counterexample :
    parse_xml [.StartElement "registry" [], .StartElement "comment" [⟨"foo", "1"⟩],
        .Characters "hello", .EndElement, .EndElement] =
      some (.ok (⟨[.Comment "hello"]⟩, [])) := by
  decide

/-- C10 amended: the `<formats>` section builder never examines the element's
attributes — the resulting section's comment field is always `None`, and the
`formats` arm of the registry dispatch is insensitive to the attribute list —
unlike the attribute-routing top-level sections (every section except
`<comment>`), each of which logs `UnexpectedAttribute` for an unknown
attribute name. -/
theorem c10_formats_ignores_attributes :
    (∀ (c : Ctx) (r : RegistryChild × Ctx), parse_formats c = some r →
      ∃ ch, r.1 = .Formats ⟨none, ch⟩) ∧
    (∀ (attrs attrs2 : List XmlAttribute) (c : Ctx) (reg : Registry),
      registryHandler "formats" attrs c reg = registryHandler "formats" attrs2 c reg) ∧
    (∀ s ∈ ["vendorids", "platforms", "tags", "types", "enums", "commands",
        "feature", "extensions", "spirvextensions", "spirvcapabilities"],
      Err.UnexpectedAttribute "/x" "zzz" ∈
        handlerErrors (registryHandler s [⟨"zzz", "1"⟩] ⟨[.EndElement], "/x", []⟩ ⟨[]⟩)) := by
  refine ⟨?_, ?_, by decide⟩
  · intro c r h
    simp only [parse_formats] at h
    rcases hm : matchElements formatsHandler c [] with _ | ⟨cc, ch⟩ <;> rw [hm] at h
    · simp at h
    · simp at h
      exact ⟨ch, by rw [← h]⟩
  · intro attrs attrs2 c reg
    rfl

/-- C10 amended witness: a concrete `parse_formats` run with the comment field
`None`. -/
theorem c10_formats_ignores_attributes_witness :
    ∃ ch, (RegistryChild.Formats ⟨none, []⟩, (⟨[], "/registry", []⟩ : Ctx)).1 =
      .Formats ⟨none, ch⟩ :=
  c10_formats_ignores_attributes.1 ⟨[.EndElement], "/registry/formats", []⟩
    (.Formats ⟨none, []⟩, ⟨[], "/registry", []⟩) (by decide)

/-- C6: in `parse_name_with_type`, a `len` value prefixed `latexmath:` paired
with an `altlen` C expression yields `DynamicShapeKind::Expression` carrying
both; without `altlen` no dynamic shape is produced (the pairing requirement —
the source dropped the hard `expect` to support registry versions before
`altlen` existed); otherwise `len` is a comma-joined list of one or two values,
yielding `Single`/`Double`, each value parsed as `null-terminated`, an integer,
a `parameter->field` reference, or a bare parameter name.  The final conjunct
ties the resolution into a concrete `parse_name_with_type` run. -/
theorem c6_len_altlen_grammar :
    (∀ l latex ce : String, stripPre l "latexmath:" = some latex →
      parseNwtDynamicShape (some l) (some ce) =
        some (some (.Expression (some latex) ce))) ∧
    (∀ l latex : String, stripPre l "latexmath:" = some latex →
      parseNwtDynamicShape (some l) none = some none) ∧
    (∀ l v : String, stripPre l "latexmath:" = none → rsSplitOnChar l ',' = [v] →
      parseNwtDynamicShape (some l) none =
        some (some (.Single (parseDynamicLengthValue v)))) ∧
    (∀ l v1 v2 : String, stripPre l "latexmath:" = none →
      rsSplitOnChar l ',' = [v1, v2] →
      parseNwtDynamicShape (some l) none =
        some (some (.Double (parseDynamicLengthValue v1) (parseDynamicLengthValue v2)))) ∧
    parseDynamicLengthValue "null-terminated" = .NullTerminated ∧
    (∀ (v : String) (n : Nat), v ≠ "null-terminated" →
      rustParseUnsigned 10 (2 ^ 64) v = some n → parseDynamicLengthValue v = .Static n) ∧
    (∀ v p f : String, v ≠ "null-terminated" → rustParseUnsigned 10 (2 ^ 64) v = none →
      rsSplitOnceSub v "->" = some (p, f) →
      parseDynamicLengthValue v = .ParameterizedField p f) ∧
    (∀ v : String, v ≠ "null-terminated" → rustParseUnsigned 10 (2 ^ 64) v = none →
      rsSplitOnceSub v "->" = none → parseDynamicLengthValue v = .Parameterized v) ∧
    parse_name_with_type breakHook
        ⟨[.StartElement "type" [], .Characters "char", .EndElement,
          .Characters " ", .StartElement "name" [], .Characters "x", .EndElement,
          .EndElement], "/m", []⟩
        "" (some "latexmath:[n]") (some "2*n") none none none none () =
      some (some
        { type_name := "char", pointer_kind := none, is_struct := false,
          bitfield_size := none, name := "x", array_shape := none,
          dynamic_shape := some (.Expression (some "[n]") "2*n"),
          externsync := none, optional := none, noautovalidity := none,
          objecttype := none }, ⟨[], "", []⟩, "char x", ()) := by
  refine ⟨?_, ?_, ?_, ?_, by decide, ?_, ?_, ?_, by decide⟩
  · intro l latex ce hl
    simp [parseNwtDynamicShape, hl]
  · intro l latex hl
    simp [parseNwtDynamicShape, hl]
  · intro l v hl hs
    simp [parseNwtDynamicShape, hl, hs]
  · intro l v1 v2 hl hs
    simp [parseNwtDynamicShape, hl, hs]
  · intro v n hv hp
    norm_num at hp
    simp [parseDynamicLengthValue, hv, hp]
  · intro v p f hv hp hs
    norm_num at hp
    simp [parseDynamicLengthValue, hv, hp, hs]
  · intro v hv hp hs
    norm_num at hp
    simp [parseDynamicLengthValue, hv, hp, hs]

/-- C6 witness: concrete instances of the hypothesised clauses (the latexmath
pairing, the single and double forms, and each value kind). -/
theorem c6_len_altlen_grammar_witness :
    parseNwtDynamicShape (some "latexmath:[2n]") (some "2*n") =
      some (some (.Expression (some "[2n]") "2*n")) ∧
    parseNwtDynamicShape (some "latexmath:[2n]") none = some none ∧
    parseNwtDynamicShape (some "null-terminated") none =
      some (some (.Single (parseDynamicLengthValue "null-terminated"))) ∧
    parseNwtDynamicShape (some "count,pSub->len") none =
      some (some (.Double (parseDynamicLengthValue "count")
        (parseDynamicLengthValue "pSub->len"))) ∧
    parseDynamicLengthValue "12" = .Static 12 ∧
    parseDynamicLengthValue "pSub->len" = .ParameterizedField "pSub" "len" ∧
    parseDynamicLengthValue "count" = .Parameterized "count" :=
  ⟨c6_len_altlen_grammar.1 "latexmath:[2n]" "[2n]" "2*n" (by decide),
    c6_len_altlen_grammar.2.1 "latexmath:[2n]" "[2n]" (by decide),
    c6_len_altlen_grammar.2.2.1 "null-terminated" "null-terminated" (by decide) (by decide),
    c6_len_altlen_grammar.2.2.2.1 "count,pSub->len" "count" "pSub->len" (by decide)
      (by decide),
    c6_len_altlen_grammar.2.2.2.2.2.1 "12" 12 (by decide) (by decide),
    c6_len_altlen_grammar.2.2.2.2.2.2.1 "pSub->len" "pSub" "len" (by decide) (by decide)
      (by decide),
    c6_len_altlen_grammar.2.2.2.2.2.2.2.1 "count" (by decide) (by decide) (by decide)⟩

/-- C9: a `<vendorid>` element's `id` attribute is accepted only when its value
starts with the literal `0x` and the remainder parses as hexadecimal `u32`; any
other value triggers an `UnexpectedAttributeValue` diagnostic at the element
breadcrumb followed by a `MissingAttribute` diagnostic for `id` (logged after
the element has been consumed, hence at the parent breadcrumb), and the
vendorid is dropped. -/
theorem c9_vendorid_id_hex (p : String) (E : List Err) (inner rest : List XmlEvent)
    (nm idv : String) (hC : Content inner) :
    ((if rsStartsWith idv "0x" then rustParseU32Hex ⟨idv.data.drop 2⟩ else none) = none →
      parse_vendorid ⟨inner ++ .EndElement :: rest, p ++ "/" ++ "vendorid", E⟩
          [⟨"name", nm⟩, ⟨"id", idv⟩] =
        (none, ⟨rest, p, E ++ [.UnexpectedAttributeValue (p ++ "/" ++ "vendorid") "id" idv,
          .MissingAttribute p "id"]⟩)) ∧
    (∀ v : Nat,
      (if rsStartsWith idv "0x" then rustParseU32Hex ⟨idv.data.drop 2⟩ else none) = some v →
      parse_vendorid ⟨inner ++ .EndElement :: rest, p ++ "/" ++ "vendorid", E⟩
          [⟨"name", nm⟩, ⟨"id", idv⟩] =
        (some ⟨nm, none, v⟩, ⟨rest, p, E⟩)) := by
  have hcons : ∀ E' : List Err,
      consumeCurrentElement ⟨inner ++ .EndElement :: rest, p ++ "/" ++ "vendorid", E'⟩ =
        ⟨rest, p, E'⟩ := fun E' => by
    rw [consumeCurrentElement_content hC, popElement_push _ _ _ _ (by decide)]
  constructor
  · intro h
    simp [parse_vendorid, matchAttributes, vendoridAttrHandler, h, hcons]
  · intro v h
    simp [parse_vendorid, matchAttributes, vendoridAttrHandler, h, hcons]

/-- C9 witness: a plain decimal `id` is rejected with the two diagnostics; a
hexadecimal one is accepted. -/
theorem c9_vendorid_id_hex_witness :
    parse_vendorid ⟨[.EndElement], "/registry/vendorids" ++ "/" ++ "vendorid", []⟩
        [⟨"name", "NV"⟩, ⟨"id", "123"⟩] =
      (none, ⟨[], "/registry/vendorids",
        [.UnexpectedAttributeValue ("/registry/vendorids" ++ "/" ++ "vendorid") "id" "123",
          .MissingAttribute "/registry/vendorids" "id"]⟩) ∧
    parse_vendorid ⟨[.EndElement], "/registry/vendorids" ++ "/" ++ "vendorid", []⟩
        [⟨"name", "NV"⟩, ⟨"id", "0x10DE"⟩] =
      (some ⟨"NV", none, 4318⟩, ⟨[], "/registry/vendorids", []⟩) :=
  ⟨by
    have := (c9_vendorid_id_hex "/registry/vendorids" [] [] [] "NV" "123"
      Content.nil).1 (by decide)
    simpa using this,
   by
    have := (c9_vendorid_id_hex "/registry/vendorids" [] [] [] "NV" "0x10DE"
      Content.nil).2 4318 (by decide)
    simpa using this⟩

/-- C3 counterexample: a dropped `<vendorid>` whose `id` fails the hexadecimal
check contributes two diagnostics entries, not exactly one. -/
theorem c3_counterexample :
    (parse_vendorid ⟨[.EndElement], "/registry/vendorids/vendorid", []⟩
        [⟨"name", "NV"⟩, ⟨"id", "5"⟩]).1 = none ∧
    (parse_vendorid ⟨[.EndElement], "/registry/vendorids/vendorid", []⟩
        [⟨"name", "NV"⟩, ⟨"id", "5"⟩]).2.errors.length = 2 := by
  decide

set_option linter.unnecessarySeqFocus false in
/-- C3 amended: for the cited builders, a dropped child contributes at least
one diagnostics entry (possibly more), earlier diagnostics are unchanged, and
every new entry's location path is the breadcrumb of the element, the parent
breadcrumb (when the failure is detected after the element was consumed and
popped), or a breadcrumb extended with an `[@attribute]` qualifier for
attribute-value conversion failures. -/
theorem c3_dropped_child_diagnostics :
    (∀ (p : String) (E : List Err) (inner rest : List XmlEvent)
        (nm id? : Option String) (r : Option VendorId) (c' : Ctx),
      Content inner →
      parse_vendorid ⟨inner ++ .EndElement :: rest, p ++ "/" ++ "vendorid", E⟩
        (mkVendoridAttrs nm id?) = (r, c') →
      r = none →
      E.length < c'.errors.length ∧ c'.errors.take E.length = E ∧
        ∀ er ∈ c'.errors.drop E.length,
          errXpath er = some (p ++ "/" ++ "vendorid") ∨ errXpath er = some p) ∧
    (∀ (p : String) (E : List Err) (rest : List XmlEvent) (bsv txv pkv : String)
        (fr : Option Format) (c' : Ctx),
      parse_format ⟨.EndElement :: rest, p ++ "/" ++ "format", E⟩
        [⟨"name", "F"⟩, ⟨"class", "C"⟩, ⟨"blockSize", bsv⟩, ⟨"texelsPerBlock", txv⟩,
          ⟨"packed", pkv⟩] = some (fr, c') →
      fr = none →
      E.length < c'.errors.length ∧ c'.errors.take E.length = E ∧
        ∀ er ∈ c'.errors.drop E.length,
          errXpath er = some (xpath_attribute p "blockSize") ∨
          errXpath er = some (xpath_attribute p "texelsPerBlock") ∨
          errXpath er = some (xpath_attribute p "packed")) := by
  constructor
  · intro p E inner rest nm id? r c' hC h hdrop
    have hcons : ∀ E' : List Err,
        consumeCurrentElement ⟨inner ++ .EndElement :: rest, p ++ "/" ++ "vendorid", E'⟩ =
          ⟨rest, p, E'⟩ := fun E' => by
      rw [consumeCurrentElement_content hC, popElement_push _ _ _ _ (by decide)]
    rcases nm with _ | nmv <;> rcases id? with _ | idv
    · simp only [parse_vendorid, mkVendoridAttrs, matchAttributes, vendoridAttrHandler,
        hcons, Option.map_none', Option.toList_none, List.nil_append, List.append_nil] at h
      simp_all [errXpath]
      subst h
      simp [errXpath, List.take_left, List.drop_left]
    · rcases hv : (if rsStartsWith idv "0x" then rustParseU32Hex ⟨idv.data.drop 2⟩
        else none) with _ | v <;>
        simp only [parse_vendorid, mkVendoridAttrs, matchAttributes, vendoridAttrHandler,
          hcons, Option.map_none', Option.map_some', Option.toList_none, Option.toList_some,
          List.nil_append, List.append_nil, List.cons_append, hv] at h <;>
        simp_all [errXpath] <;> subst h <;>
          simp [errXpath, List.take_left, List.drop_left]
    · simp only [parse_vendorid, mkVendoridAttrs, matchAttributes, vendoridAttrHandler,
        hcons, Option.map_none', Option.map_some', Option.toList_none, Option.toList_some,
        List.nil_append, List.append_nil, List.cons_append] at h
      simp_all [errXpath]
      subst h
      simp [errXpath, List.take_left, List.drop_left]
    · rcases hv : (if rsStartsWith idv "0x" then rustParseU32Hex ⟨idv.data.drop 2⟩
        else none) with _ | v <;>
        simp only [parse_vendorid, mkVendoridAttrs, matchAttributes, vendoridAttrHandler,
          hcons, Option.map_none', Option.map_some', Option.toList_none, Option.toList_some,
          List.nil_append, List.append_nil, List.cons_append, hv] at h <;>
        simp_all [errXpath] <;> try (subst h; simp [errXpath, List.take_left, List.drop_left])
  · intro p E rest bsv txv pkv fr c' h hdrop
    have hpop : ∀ E' : List Err, popElement ⟨rest, p ++ "/" ++ "format", E'⟩ = ⟨rest, p, E'⟩ :=
      fun E' => popElement_push _ _ _ _ (by decide)
    simp only [parse_format, matchAttributes, matchElements, List.length_cons,
      matchElementsGo, hpop, Option.bind_eq_bind, Option.some_bind] at h
    rcases hbs : rustParseUnsigned 10 (2 ^ 8) bsv with _ | bv <;>
      rcases htx : rustParseUnsigned 10 (2 ^ 8) txv with _ | tv <;>
        rcases hpk : rustParseUnsigned 10 (2 ^ 8) pkv with _ | pv <;>
          simp only [parse_int_attribute, hbs, htx, hpk] at h <;>
            simp_all [errXpath] <;> subst h <;>
              simp [errXpath, List.take_left, List.drop_left]

/-- C3 amended witness: a vendorid missing its `name` and a format with a
non-numeric `blockSize`, one new diagnostic each at the described locations. -/
theorem c3_dropped_child_diagnostics_witness :
    (([] : List Err).length <
        [Err.UnexpectedAttributeValue ("/registry/vendorids" ++ "/" ++ "vendorid")
          "id" "5", Err.MissingAttribute "/registry/vendorids" "name"].length ∧
      List.take ([] : List Err).length
        [Err.UnexpectedAttributeValue ("/registry/vendorids" ++ "/" ++ "vendorid")
          "id" "5", Err.MissingAttribute "/registry/vendorids" "name"] = [] ∧
      ∀ er ∈ List.drop ([] : List Err).length
        [Err.UnexpectedAttributeValue ("/registry/vendorids" ++ "/" ++ "vendorid")
          "id" "5", Err.MissingAttribute "/registry/vendorids" "name"],
        errXpath er = some ("/registry/vendorids" ++ "/" ++ "vendorid") ∨
          errXpath er = some "/registry/vendorids") ∧
    (([] : List Err).length <
        [Err.ParseIntError (xpath_attribute "/f" "blockSize") "x"].length ∧
      List.take ([] : List Err).length
        [Err.ParseIntError (xpath_attribute "/f" "blockSize") "x"] = [] ∧
      ∀ er ∈ List.drop ([] : List Err).length
        [Err.ParseIntError (xpath_attribute "/f" "blockSize") "x"],
        errXpath er = some (xpath_attribute "/f" "blockSize") ∨
          errXpath er = some (xpath_attribute "/f" "texelsPerBlock") ∨
          errXpath er = some (xpath_attribute "/f" "packed")) := by
  refine ⟨?_, ?_⟩
  · have := c3_dropped_child_diagnostics.1 "/registry/vendorids" [] [] []
      none (some "5") none
      ⟨[], "/registry/vendorids",
        [.UnexpectedAttributeValue ("/registry/vendorids" ++ "/" ++ "vendorid") "id" "5",
          .MissingAttribute "/registry/vendorids" "name"]⟩
      Content.nil (by decide) rfl
    simpa using this
  · have := c3_dropped_child_diagnostics.2 "/f" [] [] "x" "1" "1" none
      ⟨[], "/f", [.ParseIntError (xpath_attribute "/f" "blockSize") "x"]⟩
      (by decide) rfl
    simpa using this

theorem matchAttributes_mkEnumAttrs (c : Ctx) (name : String) (o b v a x : Option String) :
    matchAttributes enumAttrHandler (mkEnumAttrs name o b v a x) c {} =
      (c, { name := some name, offset := o, bitpos := b, value := v, alias_ := a, extends_ := x }) := by
  rcases o <;> rcases b <;> rcases v <;> rcases a <;> rcases x <;> rfl

/-- C1: `parse_enum` exclusivity of `offset` / `bitpos` / `value` / `alias`.
More than one present logs a `SchemaViolation` and drops the enum; `offset`
without `extends` logs a `SchemaViolation` and drops the enum; otherwise the
single present attribute determines the `EnumSpec` variant (`offset` with
`extends` yields `Offset` with `dir` positive when no `dir` attribute is
present), and all four absent yields `EnumSpec.None`. -/
theorem c1_enum_spec_exclusivity (p : String) (E : List Err) (inner rest : List XmlEvent)
    (hC : Content inner) (name : String) :
    (∀ o b v a x : Option String,
      1 < (if o.isSome then 1 else 0) + (if b.isSome then 1 else 0)
        + (if v.isSome then 1 else 0) + (if a.isSome then 1 else 0) →
      parse_enum ⟨inner ++ .EndElement :: rest, p ++ "/" ++ "enum", E⟩
          (mkEnumAttrs name o b v a x) =
        (none, ⟨rest, p, E ++ [.SchemaViolation (p ++ "/" ++ "enum")
          "Unable to determine correct specification of enum"]⟩)) ∧
    (∀ o : String, ∃ d : String,
      parse_enum ⟨inner ++ .EndElement :: rest, p ++ "/" ++ "enum", E⟩
          (mkEnumAttrs name (some o) none none none none) =
        (none, ⟨rest, p, E ++ [.SchemaViolation (p ++ "/" ++ "enum") d]⟩)) ∧
    (∀ (o x : String) (i : Int),
      (if rsStartsWith o "0x" then rustParseI64 16 ⟨o.data.drop 2⟩
        else rustParseI64 10 o) = some i →
      parse_enum ⟨inner ++ .EndElement :: rest, p ++ "/" ++ "enum", E⟩
          (mkEnumAttrs name (some o) none none none (some x)) =
        (some ⟨name, none, none, none, none, .Offset i x none true⟩, ⟨rest, p, E⟩)) ∧
    (∀ (b : String) (x : Option String) (i : Int),
      (if rsStartsWith b "0x" then rustParseI64 16 ⟨b.data.drop 2⟩
        else rustParseI64 10 b) = some i →
      parse_enum ⟨inner ++ .EndElement :: rest, p ++ "/" ++ "enum", E⟩
          (mkEnumAttrs name none (some b) none none x) =
        (some ⟨name, none, none, none, none, .Bitpos i x⟩, ⟨rest, p, E⟩)) ∧
    (∀ (v : String) (x : Option String),
      parse_enum ⟨inner ++ .EndElement :: rest, p ++ "/" ++ "enum", E⟩
          (mkEnumAttrs name none none (some v) none x) =
        (some ⟨name, none, none, none, none, .Value v x⟩, ⟨rest, p, E⟩)) ∧
    (∀ (a : String) (x : Option String),
      parse_enum ⟨inner ++ .EndElement :: rest, p ++ "/" ++ "enum", E⟩
          (mkEnumAttrs name none none none (some a) x) =
        (some ⟨name, none, none, none, none, .Alias a x⟩, ⟨rest, p, E⟩)) ∧
    parse_enum ⟨inner ++ .EndElement :: rest, p ++ "/" ++ "enum", E⟩
        (mkEnumAttrs name none none none none none) =
      (some ⟨name, none, none, none, none, .None⟩, ⟨rest, p, E⟩) := by
  have hcons : ∀ E' : List Err,
      consumeCurrentElement ⟨inner ++ .EndElement :: rest, p ++ "/" ++ "enum", E'⟩ =
        ⟨rest, p, E'⟩ := fun E' => by
    rw [consumeCurrentElement_content hC, popElement_push _ _ _ _ (by decide)]
  refine ⟨?_, ?_, ?_, ?_, ?_, ?_, ?_⟩
  · intro o b v a x h1
    rcases o with _ | ov <;> rcases b with _ | bv <;> rcases v with _ | vv <;>
      rcases a with _ | av <;>
      simp_all [parse_enum, matchAttributes_mkEnumAttrs, hcons]
  · intro o
    rcases hi : (if rsStartsWith o "0x" then rustParseI64 16 ⟨o.data.drop 2⟩
      else rustParseI64 10 o) with _ | i
    · exact ⟨"Value " ++ o ++ " is not valid base 10 or 16 integer.",
        by simp [parse_enum, matchAttributes_mkEnumAttrs, parse_integer, hi, hcons]⟩
    · exact ⟨"Missing extends on enum with offset spec.",
        by simp [parse_enum, matchAttributes_mkEnumAttrs, parse_integer, hi, hcons]⟩
  · intro o x i hi
    simp [parse_enum, matchAttributes_mkEnumAttrs, parse_integer, hi, hcons]
  · intro b x i hi
    simp [parse_enum, matchAttributes_mkEnumAttrs, parse_integer, hi, hcons]
  · intro v x
    simp [parse_enum, matchAttributes_mkEnumAttrs, hcons]
  · intro a x
    simp [parse_enum, matchAttributes_mkEnumAttrs, hcons]
  · simp [parse_enum, matchAttributes_mkEnumAttrs, hcons]

/-- C1 witness: `value` together with `offset` is a violation; `offset` without
`extends` is a violation; `offset="5"` with `extends="Y"` yields
`EnumSpec.Offset 5 "Y"` with positive direction; no spec attribute at all
yields `EnumSpec.None`. -/
theorem c1_enum_spec_exclusivity_witness :
    parse_enum ⟨[.EndElement], "/registry/enums" ++ "/" ++ "enum", []⟩
        (mkEnumAttrs "X" (some "1") none (some "2") none none) =
      (none, ⟨[], "/registry/enums", [.SchemaViolation ("/registry/enums" ++ "/" ++ "enum")
        "Unable to determine correct specification of enum"]⟩) ∧
    (∃ d : String, parse_enum ⟨[.EndElement], "/registry/enums" ++ "/" ++ "enum", []⟩
        (mkEnumAttrs "X" (some "5") none none none none) =
      (none, ⟨[], "/registry/enums",
        [.SchemaViolation ("/registry/enums" ++ "/" ++ "enum") d]⟩)) ∧
    parse_enum ⟨[.EndElement], "/registry/enums" ++ "/" ++ "enum", []⟩
        (mkEnumAttrs "X" (some "5") none none none (some "Y")) =
      (some ⟨"X", none, none, none, none, .Offset 5 "Y" none true⟩,
        ⟨[], "/registry/enums", []⟩) ∧
    parse_enum ⟨[.EndElement], "/registry/enums" ++ "/" ++ "enum", []⟩
        (mkEnumAttrs "X" none none none none none) =
      (some ⟨"X", none, none, none, none, .None⟩, ⟨[], "/registry/enums", []⟩) := by
  have h := c1_enum_spec_exclusivity "/registry/enums" [] [] [] Content.nil "X"
  exact ⟨by simpa using h.1 (some "1") none (some "2") none none (by decide),
    (h.2.1 "5").imp (fun d hd => by simpa using hd),
    by simpa using h.2.2.1 "5" "Y" 5 (by decide),
    by simpa using h.2.2.2.2.2.2⟩

end VkParse
